import Mathlib

/-!
Verification development for the meta-ads-notion-reporter pipeline.

The Python sources (scripts/process_data.py, scripts/send_to_notion.py,
scripts/run_weekly_report.py) are shallowly embedded below:

* loosely-typed JSON/Python values are modelled by `PyVal`; Python floats are
  modelled as exact rationals (IEEE special values such as the results of
  `float("inf")` / `float("nan")` and binary rounding error are outside the
  model; `round(x, 2)` is modelled as exact round-half-to-even at two
  decimals);
* fallible Python code is modelled in the `Except PyExc` monad; a Python
  division `a / b` is embedded as `pydiv a b`, which raises
  `PyExc.zeroDivisionError` exactly when the denominator is zero;
* the external Notion document store and the on-disk artifact directories are
  modelled from the spec's interface contracts (see the `Modelled from the
  spec:` doc comments).
-/

/-- Exception classes that occur in the embedded scripts.  `systemExit` models
`SystemExit` (raised by `sys.exit`), which in Python does NOT derive from
`Exception`; all other constructors model ordinary `Exception` subclasses. -/
inductive PyExc where
  | valueError
  | typeError
  | attributeError
  | zeroDivisionError
  | fileNotFoundError
  | runtimeError
  | systemExit (code : ℤ)
deriving DecidableEq, Repr

/-- Whether an exception class is caught by a Python `except Exception` clause:
every constructor except `systemExit` is an `Exception` subclass. -/
def PyExc.isException : PyExc → Bool
  | .systemExit _ => false
  | _ => true

/-- A loosely-typed Python/JSON value, as produced by `json.load`.  Floats are
modelled as exact rationals. -/
inductive PyVal where
  | none
  | vbool (b : Bool)
  | vint (n : ℤ)
  | vfloat (q : ℚ)
  | vstr (s : String)
  | vlist (xs : List PyVal)
  | vdict (fields : List (String × PyVal))

/-- Python truthiness (`if value:`): `None`, `False`, zero numbers, and empty
strings/lists/dicts are falsy. -/
def PyVal.truthy : PyVal → Bool
  | .none => false
  | .vbool b => b
  | .vint n => n != 0
  | .vfloat q => q != 0
  | .vstr s => s != ""
  | .vlist xs => !xs.isEmpty
  | .vdict fs => !fs.isEmpty

/-- Python `isinstance(value, list)`. -/
def PyVal.isList : PyVal → Bool
  | .vlist _ => true
  | _ => false

/-- Association-list lookup used to model `dict.get(key, default)`: the value
of the first binding of `key`, else the default. -/
def dgetD (fs : List (String × PyVal)) (key : String) (dflt : PyVal) : PyVal :=
  match fs.find? (fun p => p.1 == key) with
  | some p => p.2
  | Option.none => dflt

/-- Python `value.get(key, default)`: succeeds on dicts, raises
`AttributeError` on any non-dict value (ints, strings, lists, `None`, ...). -/
def PyVal.get (v : PyVal) (key : String) (dflt : PyVal) : Except PyExc PyVal :=
  match v with
  | .vdict fs => .ok (dgetD fs key dflt)
  | _ => .error .attributeError

/-- Total variant of `dict.get(key, default)` that returns the default on
non-dict input; used only to state theorem hypotheses about dict-shaped
records, where it agrees with `PyVal.get`. -/
def PyVal.getD (v : PyVal) (key : String) (dflt : PyVal) : PyVal :=
  match v with
  | .vdict fs => dgetD fs key dflt
  | _ => dflt

/-- Python `for x in value:` target, collapsed to lists: a `vlist` yields its
elements; any other value is modelled as raising.  (In Python, non-iterables
raise `TypeError`; strings and dicts are iterable but their elements then fail
the dict operations applied to them, so collapsing every non-list iteration
target to an error is faithful for the success behaviour studied here.) -/
def PyVal.iterList : PyVal → Except PyExc (List PyVal)
  | .vlist xs => .ok xs
  | _ => .error .typeError

/-- Python `value == s` for a string literal `s`: true exactly for the equal
string; values of any other type compare unequal to a `str`. -/
def pyEqStr (v : PyVal) (s : String) : Bool :=
  match v with
  | .vstr t => t == s
  | _ => false

/-- Digit-string value: `some` the natural number when every character is a
decimal digit and the list is nonempty. -/
def parseDigits : List Char → Option ℕ
  | [] => Option.none
  | cs => cs.foldlM (fun acc c => if c.isDigit then some (acc * 10 + (c.toNat - 48)) else Option.none) 0

/-- The finite-decimal fragment of Python's `float(string)` grammar: an
optional sign followed by `digits`, `digits.digits`, `digits.` or `.digits`.
Exponent, `inf`/`nan`, underscore and whitespace forms are outside the model
and are treated as non-numeric (they feed `safe_float`'s default path). -/
def parseDecString (s : String) : Option ℚ :=
  let cs := s.toList
  let signRest : ℚ × List Char :=
    match cs with
    | '-' :: t => (-1, t)
    | '+' :: t => (1, t)
    | t => (1, t)
  match signRest.2.splitOn '.' with
  | [intPart] => (parseDigits intPart).map (fun n => signRest.1 * n)
  | [intPart, fracPart] =>
    if intPart.isEmpty && fracPart.isEmpty then Option.none
    else
      match (if intPart.isEmpty then some 0 else parseDigits intPart),
          (if fracPart.isEmpty then some 0 else parseDigits fracPart) with
      | some ip, some fp => some (signRest.1 * ((ip : ℚ) + (fp : ℚ) / (10 : ℚ) ^ fracPart.length))
      | _, _ => Option.none
  | _ => Option.none

/-- The plain-integer fragment of Python's `int(string)` grammar: an optional
sign followed by digits (so `int("3.5")` fails, as in Python). -/
def parseIntString (s : String) : Option ℤ :=
  match s.toList with
  | '-' :: t => (parseDigits t).map (fun n => -(n : ℤ))
  | '+' :: t => (parseDigits t).map (fun n => (n : ℤ))
  | t => (parseDigits t).map (fun n => (n : ℤ))

/-- Python `float(value)`: `some` the converted rational, `none` when the call
raises (`TypeError` for `None`/lists/dicts, `ValueError` for non-numeric
strings). -/
def pyFloat : PyVal → Option ℚ
  | .vbool b => some (if b then 1 else 0)
  | .vint n => some (n : ℚ)
  | .vfloat q => some q
  | .vstr s => parseDecString s
  | _ => Option.none

/-- Truncation of a rational toward zero, as in Python `int(float)`. -/
def ratTrunc (q : ℚ) : ℤ := q.num / (q.den : ℤ)

/-- Python `int(value)`: `some` the converted integer, `none` when the call
raises. -/
def pyInt : PyVal → Option ℤ
  | .vbool b => some (if b then 1 else 0)
  | .vint n => some n
  | .vfloat q => some (ratTrunc q)
  | .vstr s => parseIntString s
  | _ => Option.none

/-- scripts/process_data.py `safe_float`: `float(value) if value else default`
inside a `try` that returns the default on `ValueError`/`TypeError`. -/
def safe_float (v : PyVal) (dflt : ℚ) : ℚ :=
  if v.truthy then (pyFloat v).getD dflt else dflt

/-- scripts/process_data.py `safe_int`: `int(value) if value else default`
inside a `try` that returns the default on `ValueError`/`TypeError`. -/
def safe_int (v : PyVal) (dflt : ℤ) : ℤ :=
  if v.truthy then (pyInt v).getD dflt else dflt

/-- Python division `a / b`: raises `ZeroDivisionError` when `b = 0`. -/
def pydiv (a b : ℚ) : Except PyExc ℚ :=
  if b = 0 then .error .zeroDivisionError else .ok (a / b)

/-- Loop body shared by `extract_actions` / `extract_action_values`: scan the
entries for the first one whose `action_type` equals the requested type and
return its raw `value` field; `.get` raises `AttributeError` on non-dict
entries. -/
def extract_loop (ty : String) : List PyVal → Except PyExc (Option PyVal)
  | [] => .ok Option.none
  | a :: rest => do
    let t ← a.get ("action_type") .none
    if pyEqStr t ty then do
      let v ← a.get ("value") (.vint 0)
      pure (some v)
    else
      extract_loop ty rest

/-- scripts/process_data.py `extract_actions`: value of the first entry of the
`actions` array whose `action_type` matches, coerced with `safe_int`; `0` when
the input is falsy or not a list, or when no entry matches. -/
def extract_actions (actions : PyVal) (action_type : String) : Except PyExc ℤ :=
  if !actions.truthy || !actions.isList then .ok 0
  else do
    match actions with
    | .vlist xs =>
      match (← extract_loop action_type xs) with
      | some v => pure (safe_int v 0)
      | Option.none => pure 0
    | _ => pure 0

/-- scripts/process_data.py `extract_action_values`: as `extract_actions` but
coercing with `safe_float` and defaulting to `0.0`. -/
def extract_action_values (action_values : PyVal) (action_type : String) : Except PyExc ℚ :=
  if !action_values.truthy || !action_values.isList then .ok 0
  else do
    match action_values with
    | .vlist xs =>
      match (← extract_loop action_type xs) with
      | some v => pure (safe_float v 0)
      | Option.none => pure 0
    | _ => pure 0

/-- Nearest integer with ties to even, the rounding used by Python's `round`
on exactly-representable values. -/
def rhe (q : ℚ) : ℤ :=
  if q - ⌊q⌋ < 1/2 then ⌊q⌋
  else if 1/2 < q - ⌊q⌋ then ⌊q⌋ + 1
  else if ⌊q⌋ % 2 = 0 then ⌊q⌋ else ⌊q⌋ + 1

/-- Python `round(x, 2)`, modelled as exact round-half-to-even at two decimal
places. -/
def round2 (q : ℚ) : ℚ := (rhe (q * 100) : ℚ) / 100


/-- The guard idiom `a / n if n > 0 else 0` for an integer denominator
(`cpc`, `cpa`). -/
def div_if_pos_int (a : ℚ) (n : ℤ) : Except PyExc ℚ :=
  if 0 < n then pydiv a (n : ℚ) else pure 0

/-- The guard idiom `(clicks / impressions * 100) if impressions > 0 else 0`
(`ctr`). -/
def ctr_if_pos (clicks impressions : ℤ) : Except PyExc ℚ :=
  if 0 < impressions then do
    let t ← pydiv (clicks : ℚ) (impressions : ℚ)
    pure (t * 100)
  else pure 0

/-- The guard idiom `a / b if guard > 0 else 0` for a rational denominator
equal to the guard (`roas`). -/
def div_if_pos (guard a b : ℚ) : Except PyExc ℚ :=
  if 0 < guard then pydiv a b else pure 0

/-- The `conversions` sub-record of a processed campaign
(scripts/process_data.py `calculate_metrics`). -/
structure Conversions where
  purchase : ℤ
  lead : ℤ
  add_to_cart : ℤ
  link_click : ℤ
  total : ℤ

/-- The `conversion_value` sub-record of a processed campaign. -/
structure ConversionValue where
  purchase : ℚ
  total : ℚ

/-- One processed campaign record, the dict returned by `calculate_metrics`. -/
structure Metrics where
  campaign_id : PyVal
  campaign_name : PyVal
  impressions : ℤ
  clicks : ℤ
  spend : ℚ
  reach : ℤ
  frequency : ℚ
  cpc : ℚ
  ctr : ℚ
  cpm : ℚ
  conversions : Conversions
  conversion_value : ConversionValue
  cpa : ℚ
  roas : ℚ

/-- scripts/process_data.py `calculate_metrics`: normalize one raw campaign
record and derive `cpc`/`ctr`/`cpa`/`roas` behind explicit positive-denominator
guards.  Divisions are embedded through `pydiv`, so an unguarded zero
denominator would surface as `PyExc.zeroDivisionError`. -/
def calculate_metrics (campaign : PyVal) : Except PyExc Metrics := do
  let impressions := safe_int (← campaign.get ("impressions") (.vint 0)) 0
  let clicks := safe_int (← campaign.get ("clicks") (.vint 0)) 0
  let spend := safe_float (← campaign.get ("spend") (.vint 0)) 0
  let actions ← campaign.get ("actions") (.vlist [])
  let action_values ← campaign.get ("action_values") (.vlist [])
  let purchase ← extract_actions actions ("purchase")
  let lead ← extract_actions actions ("lead")
  let add_to_cart ← extract_actions actions ("add_to_cart")
  let link_click ← extract_actions actions ("link_click")
  let purchase_value ← extract_action_values action_values ("purchase")
  let total_conversion_value ← extract_action_values action_values ("omni_purchase")
  let total_conversions := purchase + lead
  let cpc ← div_if_pos_int spend clicks
  let ctr ← ctr_if_pos clicks impressions
  let cpa ← div_if_pos_int spend total_conversions
  let roas ← div_if_pos spend total_conversion_value spend
  let campaign_id ← campaign.get ("campaign_id") .none
  let campaign_name ← campaign.get ("campaign_name") .none
  let reach := safe_int (← campaign.get ("reach") (.vint 0)) 0
  let frequency := safe_float (← campaign.get ("frequency") (.vint 0)) 0
  let cpm := safe_float (← campaign.get ("cpm") (.vint 0)) 0
  pure {
    campaign_id := campaign_id
    campaign_name := campaign_name
    impressions := impressions
    clicks := clicks
    spend := round2 spend
    reach := reach
    frequency := frequency
    cpc := round2 cpc
    ctr := round2 ctr
    cpm := cpm
    conversions := {
      purchase := purchase
      lead := lead
      add_to_cart := add_to_cart
      link_click := link_click
      total := total_conversions }
    conversion_value := {
      purchase := round2 purchase_value
      total := round2 total_conversion_value }
    cpa := round2 cpa
    roas := round2 roas }

/-- Stable descending insertion by key: `x` is placed before the first element
whose key is less than or equal to its own, so earlier input elements precede
later ones on equal keys. -/
def insertDesc (key : α → ℚ) (x : α) : List α → List α
  | [] => [x]
  | y :: ys => if key y ≤ key x then x :: y :: ys else y :: insertDesc key x ys

/-- Stable sort in descending key order.  Python's `list.sort(key=...,
reverse=True)` is a stable descending sort by the key, and any two stable
sorts by equal keys produce the same output, so this models it exactly. -/
def sortByDesc (key : α → ℚ) : List α → List α
  | [] => []
  | x :: xs => insertDesc key x (sortByDesc key xs)

/-- scripts/process_data.py `process_campaigns`: map `calculate_metrics` over
the raw campaign list, then sort descending by spend. -/
def process_campaigns (campaigns : List PyVal) : Except PyExc (List Metrics) := do
  let processed ← campaigns.mapM calculate_metrics
  pure (sortByDesc (fun m => m.spend) processed)

/-- One processed audience segment (the dicts built in
`process_audience_data`); `dim` holds the raw dimension value (`age`,
`gender` or `region`). -/
structure Segment where
  dim : PyVal
  impressions : ℤ
  clicks : ℤ
  spend : ℚ

/-- One iteration of the segment loops in `process_audience_data`: dimension
value defaulting to `"Unknown"`, counts through `safe_int`, spend through
`safe_float` then rounded. -/
def procSegment (dimKey : String) (seg : PyVal) : Except PyExc Segment := do
  let d ← seg.get dimKey (.vstr ("Unknown"))
  let imp ← seg.get ("impressions") (.vint 0)
  let clk ← seg.get ("clicks") (.vint 0)
  let sp ← seg.get ("spend") (.vint 0)
  pure {
    dim := d
    impressions := safe_int imp 0
    clicks := safe_int clk 0
    spend := round2 (safe_float sp 0) }

/-- The unsorted list a dimension loop of `process_audience_data` builds:
`audience_data.get(dimKey, [])` iterated with `procSegment`. -/
def audience_dim_raw (audience_data : PyVal) (dimKey : String) : Except PyExc (List Segment) := do
  let raw ← audience_data.get dimKey (.vlist [])
  let xs ← raw.iterList
  xs.mapM (procSegment dimKey)

/-- The three audience breakdown lists returned by `process_audience_data`. -/
structure Audience where
  age : List Segment
  gender : List Segment
  region : List Segment

/-- scripts/process_data.py `process_audience_data`: build the three dimension
lists, then sort each one descending by spend. -/
def process_audience_data (audience_data : PyVal) : Except PyExc Audience := do
  let ageS ← audience_dim_raw audience_data ("age")
  let genderS ← audience_dim_raw audience_data ("gender")
  let regionS ← audience_dim_raw audience_data ("region")
  pure {
    age := sortByDesc (fun s => s.spend) ageS
    gender := sortByDesc (fun s => s.spend) genderS
    region := sortByDesc (fun s => s.spend) regionS }

/-- The period summary dict returned by `calculate_summary`. -/
structure Summary where
  total_spend : ℚ
  total_impressions : ℤ
  total_clicks : ℤ
  total_conversions : ℤ
  total_conversion_value : ℚ
  avg_cpc : ℚ
  avg_ctr : ℚ
  avg_cpa : ℚ
  roas : ℚ
  campaign_count : ℤ

/-- The configured average value of one inbound lead
(`avg_lead_value = 500` in `calculate_summary`). -/
def avg_lead_value : ℤ := 500

/-- scripts/process_data.py `calculate_summary`: fold the processed campaigns
into period totals; `total_conversions` is the externally supplied
`notion_leads_count`, and `total_conversion_value` is that count times
`avg_lead_value`.  Every division here is syntactically guarded by a
positive-denominator test in the source, so plain rational division is an
exact embedding. -/
def calculate_summary (processed_campaigns : List Metrics) (notion_leads_count : ℤ) : Summary :=
  let total_spend := (processed_campaigns.map (fun c => c.spend)).sum
  let total_impressions := (processed_campaigns.map (fun c => c.impressions)).sum
  let total_clicks := (processed_campaigns.map (fun c => c.clicks)).sum
  let total_conversions := notion_leads_count
  let total_conversion_value : ℚ := (total_conversions : ℚ) * (avg_lead_value : ℚ)
  let avg_cpc := if 0 < total_clicks then total_spend / (total_clicks : ℚ) else 0
  let avg_ctr := if 0 < total_impressions then (total_clicks : ℚ) / (total_impressions : ℚ) * 100 else 0
  let avg_cpa := if 0 < total_conversions then total_spend / (total_conversions : ℚ) else 0
  let roas := if 0 < total_spend then total_conversion_value / total_spend else 0
  { total_spend := round2 total_spend
    total_impressions := total_impressions
    total_clicks := total_clicks
    total_conversions := total_conversions
    total_conversion_value := round2 total_conversion_value
    avg_cpc := round2 avg_cpc
    avg_ctr := round2 avg_ctr
    avg_cpa := round2 avg_cpa
    roas := round2 roas
    campaign_count := processed_campaigns.length }

/-- The date range of the report (`data['date_range']`); `until_date` models
the `until` key, whose name is reserved in Lean. -/
structure DateRange where
  since : String
  until_date : String

/-- The processed artifact handed from the Process step to the Publish step
(the `processed_data` dict written by scripts/process_data.py `main` and read
back by scripts/send_to_notion.py; the JSON file round-trip is modelled as
passing the structured value). -/
structure ProcessedData where
  date_range : DateRange
  summary : Summary
  campaigns : List Metrics
  audience : Audience

/-- The canonical week key string used both by `create_page_properties` and
`check_existing_report`: `"Week of {since}"`. -/
def week_title (date_range : DateRange) : String :=
  "Week of " ++ date_range.since

/-- The Notion page property set built by `create_page_properties`
(rich-text/date/select payloads reduced to their content values). -/
structure PageProps where
  title : String
  week_start : String
  week_end : String
  total_spend : ℚ
  total_impressions : ℤ
  total_clicks : ℤ
  avg_cpc : ℚ
  avg_ctr : ℚ
  total_conversions : ℤ
  avg_cpa : ℚ
  campaign_count : ℤ
  status : String

/-- scripts/send_to_notion.py `create_page_properties`: every numeric summary
field is copied unchanged except `avg_ctr`, which is divided by 100 for
Notion's 0-1 percent format. -/
def create_page_properties (data : ProcessedData) : PageProps :=
  { title := week_title data.date_range
    week_start := data.date_range.since
    week_end := data.date_range.until_date
    total_spend := data.summary.total_spend
    total_impressions := data.summary.total_impressions
    total_clicks := data.summary.total_clicks
    avg_cpc := data.summary.avg_cpc
    avg_ctr := data.summary.avg_ctr / 100
    total_conversions := data.summary.total_conversions
    avg_cpa := data.summary.avg_cpa
    campaign_count := data.summary.campaign_count
    status := "완료" }

/-- One insight rule firing, standing for the structured
observation/implication/action triple (`현상`/`So What`/`액션`) appended by
`create_insights_blocks`.  The Korean formatted strings are abstracted to the
rule identity plus the numeric/dimension arguments interpolated into them. -/
inductive Insight where
  | ctrHigh
  | ctrLow
  | cpaHigh
  | zeroConversions
  | ageConcentration (age : PyVal) (sharePct : ℚ)
  | genderSkew (dominant : String) (diffPct : ℚ)
  | regionConcentration (region : PyVal) (sharePct : ℚ)

/-- Rule group 1 of `create_insights_blocks` (CTR analysis): `avg_ctr > 5`
fires the scale-up insight, else `avg_ctr < 1` fires the new-creative
insight. -/
def insights_ctr_part (summary : Summary) : List Insight :=
  if 5 < summary.avg_ctr then [Insight.ctrHigh]
  else if summary.avg_ctr < 1 then [Insight.ctrLow]
  else []

/-- Rule group 2 (CPA analysis): `avg_cpa > 100 and total_conversions > 0`
fires the high-CPA insight, else `total_conversions == 0` fires the
zero-conversion insight. -/
def insights_cpa_part (summary : Summary) : List Insight :=
  if 100 < summary.avg_cpa ∧ 0 < summary.total_conversions then [Insight.cpaHigh]
  else if summary.total_conversions = 0 then [Insight.zeroConversions]
  else []

/-- Rule group 3 (age analysis): whenever the age breakdown is nonempty, the
top-spend bucket's insight is emitted, interpolating its spend share of
`total_spend` (an unguarded division).  The guarded `top_age_ctr` computed in
the source is dead and omitted. -/
def insights_age_part (data : ProcessedData) : Except PyExc (List Insight) :=
  match sortByDesc (fun s => s.spend) data.audience.age with
  | [] => .ok []
  | top :: _ => do
    let share ← pydiv top.spend data.summary.total_spend
    pure [Insight.ageConcentration top.dim (share * 100)]

/-- Rule group 4 (gender analysis): with at least two gender segments and both
a `male` and a `female` segment present, a spend skew above 30% fires the
market-expansion insight. -/
def insights_gender_part (data : ProcessedData) : Except PyExc (List Insight) :=
  if 2 ≤ data.audience.gender.length then
    match data.audience.gender.find? (fun s => pyEqStr s.dim ("male")),
        data.audience.gender.find? (fun s => pyEqStr s.dim ("female")) with
    | some m, some f => do
      let d ← pydiv |m.spend - f.spend| (max m.spend f.spend)
      let gender_diff_pct := d * 100
      if 30 < gender_diff_pct then
        pure [Insight.genderSkew (if f.spend < m.spend then ("남성") else ("여성")) gender_diff_pct]
      else pure []
    | _, _ => .ok []
  else .ok []

/-- Rule group 5 (region concentration): with a nonempty region breakdown, the
top region's spend share of `total_spend` is computed (unguarded division) and
a share above 50% fires the diversification insight. -/
def insights_region_part (data : ProcessedData) : Except PyExc (List Insight) :=
  match sortByDesc (fun s => s.spend) data.audience.region with
  | [] => .ok []
  | top :: _ => do
    let conc ← pydiv top.spend data.summary.total_spend
    let region_concentration := conc * 100
    if 50 < region_concentration then
      pure [Insight.regionConcentration top.dim region_concentration]
    else pure []

/-- The `insights` list accumulated by scripts/send_to_notion.py
`create_insights_blocks`: the five rule groups' emissions concatenated in
source order (the pure CTR/CPA groups cannot raise; the later groups are
evaluated in order, so error order matches the source). -/
def create_insights (data : ProcessedData) : Except PyExc (List Insight) := do
  let agePart ← insights_age_part data
  let genderPart ← insights_gender_part data
  let regionPart ← insights_region_part data
  pure (insights_ctr_part data.summary ++ insights_cpa_part data.summary ++
    agePart ++ genderPart ++ regionPart)

/-- One Notion content block, with rich text abstracted away: headings keep
only their level, tables their width and row count, and insight toggles the
insight they render. -/
inductive Block where
  | heading2
  | heading3
  | tableBlock (width : ℕ) (rows : ℕ)
  | toggle (insight : Insight)

/-- scripts/send_to_notion.py `create_summary_blocks`: a heading and the
2-column, 8-row summary table. -/
def create_summary_blocks (_summary : Summary) : List Block :=
  [Block.heading2, Block.tableBlock 2 8]

/-- scripts/send_to_notion.py `create_campaign_table_blocks`: a heading and an
8-column table with a header row plus one row per top-10 campaign. -/
def create_campaign_table_blocks (campaigns : List Metrics) : List Block :=
  [Block.heading2, Block.tableBlock 8 (1 + (campaigns.take 10).length)]

/-- scripts/send_to_notion.py `create_audience_blocks`: a heading, then per
dimension a sub-heading and a 4-column table with a header row plus one row
per segment. -/
def create_audience_blocks (audience : Audience) : List Block :=
  [Block.heading2,
    Block.heading3, Block.tableBlock 4 (1 + audience.age.length),
    Block.heading3, Block.tableBlock 4 (1 + audience.gender.length),
    Block.heading3, Block.tableBlock 4 (1 + audience.region.length)]

/-- scripts/send_to_notion.py `create_insights_blocks`: a heading followed by
one toggle block per fired insight. -/
def create_insights_blocks (data : ProcessedData) : Except PyExc (List Block) := do
  let insights ← create_insights data
  pure (Block.heading2 :: insights.map Block.toggle)

/-- scripts/send_to_notion.py `create_page_content`: summary, campaign table,
audience and insight block groups concatenated. -/
def create_page_content (data : ProcessedData) : Except PyExc (List Block) := do
  let insightBlocks ← create_insights_blocks data
  pure (create_summary_blocks data.summary ++
    create_campaign_table_blocks data.campaigns ++
    create_audience_blocks data.audience ++ insightBlocks)

/-- Modelled from the spec: one document of the external Notion store (§3
ReportDocument, §6 destination document store), with its store-assigned id,
its property set and its content block sequence.  The store itself is not
part of the repository; only its interface contract is specified. -/
structure NPage where
  pid : ℕ
  props : PageProps
  content : List Block

/-- Modelled from the spec: the external document store state — the documents
it holds plus a fresh-id counter for `create`.  The store enforces no
uniqueness constraint on titles (§4.5). -/
structure NStore where
  pages : List NPage
  nextId : ℕ

/-- Modelled from the spec: the store's `find(key)` query as used by
`check_existing_report` — the documents whose title property exactly equals
the queried string, in store order. -/
def notion_query_by_title (store : NStore) (t : String) : List NPage :=
  store.pages.filter (fun p => p.props.title == t)

/-- Modelled from the spec: the store's `create(properties, content)`
operation — append a fresh-id document holding the given properties and
content, returning its id. -/
def notion_pages_create (store : NStore) (props : PageProps) (children : List Block) : ℕ × NStore :=
  (store.nextId,
    { pages := store.pages ++ [{ pid := store.nextId, props := props, content := children }]
      nextId := store.nextId + 1 })

/-- Modelled from the spec: the store's `update(id, properties)` operation —
overwrite the property set of the documents with the given id, touching
nothing else. -/
def notion_pages_update (store : NStore) (pid : ℕ) (props : PageProps) : NStore :=
  { store with pages := store.pages.map (fun p => if p.pid = pid then { p with props := props } else p) }

/-- Modelled from the spec: the store's `append-content(id, content)`
operation — append the given blocks to the content of the documents with the
given id; no delete/replace-content operation exists (§6). -/
def notion_blocks_append (store : NStore) (pid : ℕ) (children : List Block) : NStore :=
  { store with pages := store.pages.map (fun p => if p.pid = pid then { p with content := p.content ++ children } else p) }

/-- scripts/send_to_notion.py `check_existing_report`: query the store for the
exact title `"Week of {since}"` and return the first result's id, if any. -/
def check_existing_report (store : NStore) (date_range : DateRange) : Option ℕ :=
  (notion_query_by_title store (week_title date_range)).head?.map (fun p => p.pid)

/-- Which branch `create_or_update_page` took. -/
inductive PublishResult where
  | created (pid : ℕ)
  | updated (pid : ℕ)

/-- scripts/send_to_notion.py `create_or_update_page`: build properties and
content, look the week key up, then either update properties and append
content to the existing page, or create a new page. -/
def create_or_update_page (store : NStore) (data : ProcessedData) : Except PyExc (PublishResult × NStore) := do
  let properties := create_page_properties data
  let children ← create_page_content data
  match check_existing_report store data.date_range with
  | some existing_page_id =>
    let store1 := notion_pages_update store existing_page_id properties
    let store2 := notion_blocks_append store1 existing_page_id children
    pure (PublishResult.updated existing_page_id, store2)
  | Option.none =>
    let created := notion_pages_create store properties children
    pure (PublishResult.created created.1, created.2)

/-- Modelled from the spec: one persisted intermediate artifact (§6), a JSON
payload stamped with a modification time; the directory-scanning adapters
below always pick the most recently modified matching file. -/
structure JFile where
  mtime : ℕ
  payload : PyVal

/-- Python `max(files, key=mtime)` over a nonempty list: the first file with
maximal modification time. -/
def latestFile (x : JFile) (xs : List JFile) : JFile :=
  xs.foldl (fun best f => if best.mtime < f.mtime then f else best) x

/-- scripts/process_data.py `get_latest_raw_data`: raise `FileNotFoundError`
when no `ads_data_*.json` artifact exists, else load the latest one. -/
def get_latest_raw_data (files : List JFile) : Except PyExc PyVal :=
  match files with
  | [] => .error .fileNotFoundError
  | x :: xs => .ok (latestFile x xs).payload

/-- scripts/process_data.py `get_latest_notion_leads`: when no
`notion_leads_*.json` artifact exists this does NOT raise — it warns and
returns a zero-lead payload; else it loads the latest artifact. -/
def get_latest_notion_leads (files : List JFile) : Except PyExc PyVal :=
  match files with
  | [] => .ok (.vdict [("total_leads", .vint 0), ("leads", .vlist [])])
  | x :: xs => .ok (latestFile x xs).payload

/-- scripts/send_to_notion.py `get_latest_processed_data`: raise
`FileNotFoundError` when no `weekly_report_*.json` artifact exists, else load
the latest one. -/
def get_latest_processed_data (files : List JFile) : Except PyExc PyVal :=
  match files with
  | [] => .error .fileNotFoundError
  | x :: xs => .ok (latestFile x xs).payload

/-- The `try/except Exception: sys.exit(1)` wrapper that each step module's
`main` puts around its body (fetch_meta_ads.py, fetch_notion_leads.py,
process_data.py, send_to_notion.py all end in this pattern): an ordinary
`Exception` is swallowed and re-raised as `SystemExit(1)`; a non-`Exception`
would propagate unchanged. -/
def script_main_wrap (body : Except PyExc α) : Except PyExc α :=
  match body with
  | .ok a => .ok a
  | .error e => if e.isException then .error (.systemExit 1) else .error e

/-- scripts/run_weekly_report.py `retry_on_failure`, instrumented with the
number of calls made.  `f k` is the step function's outcome on attempt `k`
(attempts are numbered from 1).  The loop body catches only
`except Exception`, so a non-`Exception` error (`SystemExit`) propagates out
on the attempt that raised it; after `max_retries` failed attempts the last
exception is re-raised.  When `max_retries = 0` the Python loop body never
runs and the function falls through returning `None`, modelled as
`Option.none`. -/
def retryAux (f : ℕ → Except PyExc α) : ℕ → ℕ → Option (Except PyExc α) × ℕ
  | 0, _ => (Option.none, 0)
  | remaining + 1, attempt =>
    match f attempt with
    | .ok a => (some (.ok a), 1)
    | .error e =>
      if e.isException then
        if remaining = 0 then (some (.error e), 1)
        else
          let rest := retryAux f remaining (attempt + 1)
          (rest.1, rest.2 + 1)
      else (some (.error e), 1)

/-- scripts/run_weekly_report.py `retry_on_failure`: run the attempts starting
at attempt 1.  Returns the final outcome (`Option.none` for the
`max_retries = 0` fall-through) and the number of times the step function was
invoked. -/
def retry_on_failure (f : ℕ → Except PyExc α) (max_retries : ℕ) : Option (Except PyExc α) × ℕ :=
  retryAux f max_retries 1

/-- The orchestrator's environment: whether the required environment variables
are all set, and the per-attempt outcome of each step module's `main` body
(the code inside its `try`, before the `except Exception: sys.exit(1)`
wrapper). -/
structure StepBehaviors where
  envOk : Bool
  fetchMeta : ℕ → Except PyExc PyVal
  fetchLeads : ℕ → Except PyExc PyVal
  processStep : ℕ → Except PyExc PyVal
  sendNotion : ℕ → Except PyExc PyVal

/-- Observable result of one orchestrator run: the returned exit code (`.ok`)
or the uncaught exception that escaped `main` (`.error`), the `is_error`
flags of the Slack notifications sent, in order, and how many times each step
function was invoked. -/
structure RunResult where
  outcome : Except PyExc ℤ
  notifs : List Bool
  calls1 : ℕ
  calls2 : ℕ
  calls3 : ℕ
  calls4 : ℕ

/-- Outcome of one retried step as seen by the orchestrator `main`'s `try`
block: `Option.none` models Python `None` flowing onward (the
`max_retries = 0` fall-through, treated as success by the caller). -/
def stepOutcome (f : ℕ → Except PyExc PyVal) (max_retries : ℕ) : Option (Except PyExc PyVal) × ℕ :=
  retry_on_failure (fun k => script_main_wrap (f k)) max_retries

/-- scripts/run_weekly_report.py `main`: validate the environment, run the
four steps in order under `retry_on_failure` (with the default
`max_retries = 3`), and send exactly one Slack notification at the end of the
`try` (success) or in the `except Exception` handler (failure).  A
non-`Exception` error — in particular the `SystemExit(1)` that every step
module's own `main` converts its failures into — is caught by neither
`retry_on_failure` nor this handler, so it escapes `main` with no
notification sent. -/
def run_weekly_report_main (b : StepBehaviors) : RunResult :=
  if !b.envOk then
    { outcome := .ok 1, notifs := [true], calls1 := 0, calls2 := 0, calls3 := 0, calls4 := 0 }
  else
    let r1 := stepOutcome b.fetchMeta 3
    match r1.1 with
    | some (.error e) =>
      if e.isException then
        { outcome := .ok 1, notifs := [true], calls1 := r1.2, calls2 := 0, calls3 := 0, calls4 := 0 }
      else
        { outcome := .error e, notifs := [], calls1 := r1.2, calls2 := 0, calls3 := 0, calls4 := 0 }
    | _ =>
      let r2 := stepOutcome b.fetchLeads 3
      match r2.1 with
      | some (.error e) =>
        if e.isException then
          { outcome := .ok 1, notifs := [true], calls1 := r1.2, calls2 := r2.2, calls3 := 0, calls4 := 0 }
        else
          { outcome := .error e, notifs := [], calls1 := r1.2, calls2 := r2.2, calls3 := 0, calls4 := 0 }
      | _ =>
        let r3 := stepOutcome b.processStep 3
        match r3.1 with
        | some (.error e) =>
          if e.isException then
            { outcome := .ok 1, notifs := [true], calls1 := r1.2, calls2 := r2.2, calls3 := r3.2, calls4 := 0 }
          else
            { outcome := .error e, notifs := [], calls1 := r1.2, calls2 := r2.2, calls3 := r3.2, calls4 := 0 }
        | _ =>
          let r4 := stepOutcome b.sendNotion 3
          match r4.1 with
          | some (.error e) =>
            if e.isException then
              { outcome := .ok 1, notifs := [true], calls1 := r1.2, calls2 := r2.2, calls3 := r3.2, calls4 := r4.2 }
            else
              { outcome := .error e, notifs := [], calls1 := r1.2, calls2 := r2.2, calls3 := r3.2, calls4 := r4.2 }
          | _ =>
            { outcome := .ok 0, notifs := [false], calls1 := r1.2, calls2 := r2.2, calls3 := r3.2, calls4 := r4.2 }


/-- Sample processed-campaign record used to instantiate universally
quantified theorems: the spec scenario record (1000 impressions, 50 clicks,
spend 100) with a configurable conversions sub-record. -/
def mkSampleMetrics (conv : Conversions) : Metrics :=
  { campaign_id := .none
    campaign_name := .none
    impressions := 1000
    clicks := 50
    spend := 100
    reach := 0
    frequency := 0
    cpc := 2
    ctr := 5
    cpm := 0
    conversions := conv
    conversion_value := { purchase := 0, total := 0 }
    cpa := 20
    roas := 0 }

/-- Sample conversions: 2 purchases and 3 leads (platform total 5). -/
def sampleConvA : Conversions :=
  { purchase := 2, lead := 3, add_to_cart := 0, link_click := 0, total := 5 }

/-- Sample conversions: none at all (platform total 0). -/
def sampleConvB : Conversions :=
  { purchase := 0, lead := 0, add_to_cart := 0, link_click := 0, total := 0 }


/-- Sample raw campaign: name `A`, spend `50.0`, `10` clicks. -/
def campFsA : List (String × PyVal) :=
  [("campaign_name", .vstr ("A")), ("spend", .vfloat 50), ("clicks", .vint 10)]

/-- Sample raw campaign: name `B`, the same spend `50.0`, `20` clicks. -/
def campFsB : List (String × PyVal) :=
  [("campaign_name", .vstr ("B")), ("spend", .vfloat 50), ("clicks", .vint 20)]

/-- Sample raw audience payload: two equal-spend age buckets, no gender or
region segments. -/
def audSample : PyVal := .vdict [
  ("age", .vlist [
    .vdict [("age", .vstr ("18-24")), ("spend", .vfloat 3)],
    .vdict [("age", .vstr ("25-34")), ("spend", .vfloat 3)]]),
  ("gender", .vlist []),
  ("region", .vlist [])]


/-- Specification-side definition, following the claim's wording for the
metric extractor: the count value attached to the first entry whose tag
matches the requested type (coerced through `safe_int`), else the zero
default.  Compared against `extract_actions` in the C6 theorem. -/
def spec_first_match_int (entries : List PyVal) (ty : String) : ℤ :=
  match entries.find? (fun a => pyEqStr (a.getD ("action_type") .none) ty) with
  | some a => safe_int (a.getD ("value") (.vint 0)) 0
  | Option.none => 0

/-- Specification-side definition, following the claim's wording for the
monetary extractor: the money value attached to the first matching entry
(coerced through `safe_float`), else `0.0`. -/
def spec_first_match_float (entries : List PyVal) (ty : String) : ℚ :=
  match entries.find? (fun a => pyEqStr (a.getD ("action_type") .none) ty) with
  | some a => safe_float (a.getD ("value") (.vint 0)) 0
  | Option.none => 0


/-- Sample period summary: CTR and CPA in the no-rule band, conversions
present, total spend `100`. -/
def insightSummaryEx : Summary :=
  { total_spend := 100
    total_impressions := 1000
    total_clicks := 20
    total_conversions := 5
    total_conversion_value := 2500
    avg_cpc := 5
    avg_ctr := 2
    avg_cpa := 20
    roas := 25
    campaign_count := 1 }

/-- Sample processed artifact whose only nonempty breakdown is a single age
bucket holding 1% of total spend. -/
def insightDataEx : ProcessedData :=
  { date_range := { since := "2025-01-01", until_date := "2025-01-08" }
    summary := insightSummaryEx
    campaigns := []
    audience := {
      age := [{ dim := .vstr ("18-24"), impressions := 100, clicks := 1, spend := 1 }]
      gender := []
      region := [] } }


/-- The empty document store. -/
def emptyStore : NStore := { pages := [], nextId := 0 }

/-- A store already holding one report document for `insightDataEx`'s week
key (id `7`, one existing content block). -/
def storeEx : NStore :=
  { pages := [{ pid := 7, props := create_page_properties insightDataEx, content := [Block.heading2] }]
    nextId := 8 }


/-- Pipeline environment in which the fetch-ads step body raises an ordinary
`Exception` (e.g. a network failure) on every attempt, and everything else
would succeed. -/
def failingFetchBehaviors : StepBehaviors :=
  { envOk := true
    fetchMeta := fun _ => .error .runtimeError
    fetchLeads := fun _ => .ok .none
    processStep := fun _ => .ok .none
    sendNotion := fun _ => .ok .none }

/-- Pipeline environment in which every step succeeds on its first attempt. -/
def allOkBehaviors : StepBehaviors :=
  { envOk := true
    fetchMeta := fun _ => .ok .none
    fetchLeads := fun _ => .ok .none
    processStep := fun _ => .ok .none
    sendNotion := fun _ => .ok .none }

/-- Pipeline environment in which the Process step finds no raw-ads artifact:
its body fails with the `FileNotFoundError` that `get_latest_raw_data` raises
on an empty directory. -/
def processMissingBehaviors : StepBehaviors :=
  { envOk := true
    fetchMeta := fun _ => .ok .none
    fetchLeads := fun _ => .ok .none
    processStep := fun _ => get_latest_raw_data []
    sendNotion := fun _ => .ok .none }

/-! Computation lemmas: small-step rewrite rules that let `simp`/`norm_num`
evaluate the embedded functions on concrete inputs and reason about them
symbolically without unfolding raw recursors. -/

/-- Bind on a successful `Except` computation. -/
@[simp]
theorem except_bind_ok (a : α) (f : α → Except PyExc β) :
    ((Except.ok a : Except PyExc α) >>= f) = f a := rfl

/-- Bind on a failed `Except` computation. -/
@[simp]
theorem except_bind_error (e : PyExc) (f : α → Except PyExc β) :
    ((Except.error e : Except PyExc α) >>= f) = Except.error e := rfl

/-- `pure` in the `Except PyExc` monad is `Except.ok`. -/
@[simp]
theorem except_pure_eq (a : α) : (pure a : Except PyExc α) = Except.ok a := rfl

/-- Lookup in the empty association list yields the default. -/
@[simp]
theorem dgetD_nil (key : String) (dflt : PyVal) : dgetD [] key dflt = dflt := rfl

/-- Lookup steps through one binding at a time. -/
@[simp]
theorem dgetD_cons (k1 : String) (v : PyVal) (fs : List (String × PyVal))
    (key : String) (dflt : PyVal) :
    dgetD ((k1, v) :: fs) key dflt = if k1 = key then v else dgetD fs key dflt := by
  by_cases h : k1 = key
  · simp [dgetD, List.find?, h]
  · have hb : (k1 == key) = false := by simpa using h
    simp [dgetD, List.find?, hb, h]

/-- `dict.get` on a dict value succeeds with the association-list lookup. -/
@[simp]
theorem pyval_get_vdict (fs : List (String × PyVal)) (key : String) (dflt : PyVal) :
    (PyVal.vdict fs).get key dflt = .ok (dgetD fs key dflt) := rfl

/-- `safe_int` of an integer value: the integer, except that the falsy `0`
takes the default (which every call site sets to `0` anyway). -/
@[simp]
theorem safe_int_vint (n : ℤ) (dflt : ℤ) :
    safe_int (.vint n) dflt = if n = 0 then dflt else n := by
  by_cases h : n = 0 <;> simp [safe_int, PyVal.truthy, pyInt, h]

/-- `safe_int` of a float value truncates toward zero, with the falsy `0.0`
taking the default. -/
@[simp]
theorem safe_int_vfloat (q : ℚ) (dflt : ℤ) :
    safe_int (.vfloat q) dflt = if q = 0 then dflt else ratTrunc q := by
  by_cases h : q = 0 <;> simp [safe_int, PyVal.truthy, pyInt, h]

/-- `safe_int` of `None` is the default. -/
@[simp]
theorem safe_int_none (dflt : ℤ) : safe_int .none dflt = dflt := rfl

/-- `safe_int` of a list is the default (Python `int([...])` raises
`TypeError`, which `safe_int` swallows). -/
@[simp]
theorem safe_int_vlist (xs : List PyVal) (dflt : ℤ) : safe_int (.vlist xs) dflt = dflt := by
  cases xs <;> simp [safe_int, PyVal.truthy, pyInt]

/-- `safe_float` of a float value: the float, with the falsy `0.0` taking the
default. -/
@[simp]
theorem safe_float_vfloat (q : ℚ) (dflt : ℚ) :
    safe_float (.vfloat q) dflt = if q = 0 then dflt else q := by
  by_cases h : q = 0 <;> simp [safe_float, PyVal.truthy, pyFloat, h]

/-- `safe_float` of an integer value casts it, with the falsy `0` taking the
default. -/
@[simp]
theorem safe_float_vint (n : ℤ) (dflt : ℚ) :
    safe_float (.vint n) dflt = if n = 0 then dflt else (n : ℚ) := by
  by_cases h : n = 0 <;> simp [safe_float, PyVal.truthy, pyFloat, h]

/-- `safe_float` of `None` is the default. -/
@[simp]
theorem safe_float_none (dflt : ℚ) : safe_float .none dflt = dflt := rfl

/-- `safe_float` of a list is the default. -/
@[simp]
theorem safe_float_vlist (xs : List PyVal) (dflt : ℚ) : safe_float (.vlist xs) dflt = dflt := by
  cases xs <;> simp [safe_float, PyVal.truthy, pyFloat]

/-- `extract_actions` on an empty or non-list value is `0`. -/
@[simp]
theorem extract_actions_not_list (v : PyVal) (ty : String)
    (h : (!v.truthy || !v.isList) = true) : extract_actions v ty = .ok 0 := by
  simp [extract_actions, h]

/-- `extract_action_values` on an empty or non-list value is `0.0`. -/
@[simp]
theorem extract_action_values_not_list (v : PyVal) (ty : String)
    (h : (!v.truthy || !v.isList) = true) : extract_action_values v ty = .ok 0 := by
  simp [extract_action_values, h]

/-- `pydiv` under a nonzero denominator. -/
@[simp]
theorem pydiv_ne (a b : ℚ) (h : b ≠ 0) : pydiv a b = .ok (a / b) := by
  simp [pydiv, h]

/-- `pydiv` by zero raises. -/
@[simp]
theorem pydiv_zero (a : ℚ) : pydiv a 0 = .error .zeroDivisionError := rfl

/-- The guarded division `a / n if n > 0 else 0` never raises and computes the
guarded rational quotient. -/
@[simp]
theorem div_if_pos_int_eq (a : ℚ) (n : ℤ) :
    div_if_pos_int a n = Except.ok (if 0 < n then a / (n : ℚ) else 0) := by
  by_cases h : 0 < n
  · have hq : ((n : ℚ)) ≠ 0 := Int.cast_ne_zero.mpr (ne_of_gt h)
    simp [div_if_pos_int, h, hq]
  · simp [div_if_pos_int, h]

/-- The guarded percentage `(clicks / impressions * 100) if impressions > 0
else 0` never raises. -/
@[simp]
theorem ctr_if_pos_eq (clicks impressions : ℤ) :
    ctr_if_pos clicks impressions =
      Except.ok (if 0 < impressions then (clicks : ℚ) / (impressions : ℚ) * 100 else 0) := by
  by_cases h : 0 < impressions
  · have hq : ((impressions : ℚ)) ≠ 0 := Int.cast_ne_zero.mpr (ne_of_gt h)
    simp [ctr_if_pos, h, hq]
  · simp [ctr_if_pos, h]

/-- The guarded division `a / b if guard > 0 else 0` never raises when the
denominator equals the guard. -/
@[simp]
theorem div_if_pos_self_eq (a b : ℚ) :
    div_if_pos b a b = Except.ok (if 0 < b then a / b else 0) := by
  by_cases h : 0 < b
  · simp [div_if_pos, h, ne_of_gt h]
  · simp [div_if_pos, h]

/-- Closed form of `calculate_metrics` on a dict-shaped campaign whose six
action extractions succeed: the gets cannot fail and every division is
guarded, so the computation returns the record built from the coerced raw
fields. -/
theorem calculate_metrics_ok (fs : List (String × PyVal))
    (impressions clicks : ℤ) (spend : ℚ)
    (purchase lead add_to_cart link_click : ℤ) (purchase_value total_conversion_value : ℚ)
    (himp : safe_int (dgetD fs ("impressions") (.vint 0)) 0 = impressions)
    (hclk : safe_int (dgetD fs ("clicks") (.vint 0)) 0 = clicks)
    (hsp : safe_float (dgetD fs ("spend") (.vint 0)) 0 = spend)
    (hp : extract_actions (dgetD fs ("actions") (.vlist [])) ("purchase") = .ok purchase)
    (hl : extract_actions (dgetD fs ("actions") (.vlist [])) ("lead") = .ok lead)
    (hc : extract_actions (dgetD fs ("actions") (.vlist [])) ("add_to_cart") = .ok add_to_cart)
    (hk : extract_actions (dgetD fs ("actions") (.vlist [])) ("link_click") = .ok link_click)
    (hpv : extract_action_values (dgetD fs ("action_values") (.vlist [])) ("purchase") = .ok purchase_value)
    (htv : extract_action_values (dgetD fs ("action_values") (.vlist [])) ("omni_purchase") = .ok total_conversion_value) :
    calculate_metrics (.vdict fs) = .ok {
      campaign_id := dgetD fs ("campaign_id") .none
      campaign_name := dgetD fs ("campaign_name") .none
      impressions := impressions
      clicks := clicks
      spend := round2 spend
      reach := safe_int (dgetD fs ("reach") (.vint 0)) 0
      frequency := safe_float (dgetD fs ("frequency") (.vint 0)) 0
      cpc := round2 (if 0 < clicks then spend / (clicks : ℚ) else 0)
      ctr := round2 (if 0 < impressions then (clicks : ℚ) / (impressions : ℚ) * 100 else 0)
      cpm := safe_float (dgetD fs ("cpm") (.vint 0)) 0
      conversions := {
        purchase := purchase
        lead := lead
        add_to_cart := add_to_cart
        link_click := link_click
        total := purchase + lead }
      conversion_value := {
        purchase := round2 purchase_value
        total := round2 total_conversion_value }
      cpa := round2 (if 0 < purchase + lead then spend / ((purchase + lead : ℤ) : ℚ) else 0)
      roas := round2 (if 0 < spend then total_conversion_value / spend else 0) } := by
  simp only [calculate_metrics, pyval_get_vdict, except_bind_ok, himp, hclk, hsp,
    hp, hl, hc, hk, hpv, htv, div_if_pos_int_eq, ctr_if_pos_eq, div_if_pos_self_eq,
    except_pure_eq]

/-- Rounding zero gives zero. -/
@[simp]
theorem round2_zero : round2 0 = 0 := by
  norm_num [round2, rhe]

/-- Round-half-to-even of a non-negative rational is non-negative. -/
theorem rhe_nonneg (q : ℚ) (h : 0 ≤ q) : 0 ≤ rhe q := by
  have hf : 0 ≤ ⌊q⌋ := Int.floor_nonneg.mpr h
  unfold rhe
  split
  · exact hf
  · split
    · omega
    · split
      · exact hf
      · omega

/-- Two-decimal rounding of a non-negative rational is non-negative. -/
theorem round2_nonneg (q : ℚ) (h : 0 ≤ q) : 0 ≤ round2 q := by
  have h1 : (0 : ℚ) ≤ (rhe (q * 100) : ℚ) := by
    exact_mod_cast rhe_nonneg (q * 100) (by positivity)
  unfold round2
  positivity

/-- Inversion of a successful `Except` bind: the first stage succeeded and its
value feeds the continuation. -/
theorem bind_ok_inv {x : Except PyExc α} {f : α → Except PyExc β} {b : β}
    (h : (x >>= f) = .ok b) : ∃ a, x = .ok a ∧ f a = .ok b := by
  cases x with
  | ok a => exact ⟨a, rfl, h⟩
  | error e => simp at h

/-- A bind raises `ZeroDivisionError` only if one of its stages can. -/
theorem noZD_bind {x : Except PyExc α} {f : α → Except PyExc β}
    (hx : x ≠ .error .zeroDivisionError)
    (hf : ∀ a, f a ≠ .error .zeroDivisionError) :
    (x >>= f) ≠ .error .zeroDivisionError := by
  cases x with
  | ok a => exact hf a
  | error e =>
    intro hcontra
    exact hx (by simpa using hcontra)

/-- The extraction loop fails only with `AttributeError` (from `.get` on a
non-dict entry), never with a division error. -/
theorem extract_loop_error (ty : String) (xs : List PyVal) (e : PyExc)
    (h : extract_loop ty xs = .error e) : e = .attributeError := by
  induction xs with
  | nil => simp [extract_loop] at h
  | cons a rest ih =>
    rw [extract_loop] at h
    cases ha : a.get ("action_type") .none with
    | error e1 =>
      rw [ha] at h
      cases a <;> simp_all [PyVal.get]
    | ok t =>
      rw [ha] at h
      simp only [except_bind_ok] at h
      by_cases ht : pyEqStr t ty
      · simp only [ht, if_true] at h
        cases hv : a.get ("value") (.vint 0) with
        | error e2 =>
          rw [hv] at h
          cases a <;> simp_all [PyVal.get]
        | ok v => rw [hv] at h; simp at h
      · simp only [ht, if_false] at h
        exact ih h

/-- Unfolding of `extract_actions` on a list value: empty lists are falsy and
yield `0`; otherwise the extraction loop runs and its hit is coerced. -/
theorem extract_actions_vlist (xs : List PyVal) (ty : String) :
    extract_actions (.vlist xs) ty =
      if xs.isEmpty then .ok 0
      else extract_loop ty xs >>= fun r =>
        match r with
        | some v => Except.ok (safe_int v 0)
        | Option.none => Except.ok 0 := by
  rcases xs with _ | ⟨a, rest⟩ <;>
    simp [extract_actions, PyVal.truthy, PyVal.isList]

/-- Unfolding of `extract_action_values` on a list value. -/
theorem extract_action_values_vlist (xs : List PyVal) (ty : String) :
    extract_action_values (.vlist xs) ty =
      if xs.isEmpty then .ok 0
      else extract_loop ty xs >>= fun r =>
        match r with
        | some v => Except.ok (safe_float v 0)
        | Option.none => Except.ok 0 := by
  rcases xs with _ | ⟨a, rest⟩ <;>
    simp [extract_action_values, PyVal.truthy, PyVal.isList]

/-- `extract_actions` never raises a division error. -/
theorem extract_actions_noZD (v : PyVal) (ty : String) :
    extract_actions v ty ≠ .error .zeroDivisionError := by
  cases v with
  | vlist xs =>
    rw [extract_actions_vlist]
    split
    · simp
    · refine noZD_bind ?_ ?_
      · intro hcontra
        have := extract_loop_error _ _ _ hcontra
        simp at this
      · intro a
        cases a <;> simp
  | none => simp [extract_actions, PyVal.truthy, PyVal.isList]
  | vbool b => simp [extract_actions, PyVal.truthy, PyVal.isList]
  | vint n => simp [extract_actions, PyVal.truthy, PyVal.isList]
  | vfloat q => simp [extract_actions, PyVal.truthy, PyVal.isList]
  | vstr s => simp [extract_actions, PyVal.truthy, PyVal.isList]
  | vdict fs => simp [extract_actions, PyVal.truthy, PyVal.isList]

/-- `extract_action_values` never raises a division error. -/
theorem extract_action_values_noZD (v : PyVal) (ty : String) :
    extract_action_values v ty ≠ .error .zeroDivisionError := by
  cases v with
  | vlist xs =>
    rw [extract_action_values_vlist]
    split
    · simp
    · refine noZD_bind ?_ ?_
      · intro hcontra
        have := extract_loop_error _ _ _ hcontra
        simp at this
      · intro a
        cases a <;> simp
  | none => simp [extract_action_values, PyVal.truthy, PyVal.isList]
  | vbool b => simp [extract_action_values, PyVal.truthy, PyVal.isList]
  | vint n => simp [extract_action_values, PyVal.truthy, PyVal.isList]
  | vfloat q => simp [extract_action_values, PyVal.truthy, PyVal.isList]
  | vstr s => simp [extract_action_values, PyVal.truthy, PyVal.isList]
  | vdict fs => simp [extract_action_values, PyVal.truthy, PyVal.isList]

/-- Every division in `calculate_metrics` sits behind a positive-denominator
guard, so the computation can never surface a `ZeroDivisionError`. -/
theorem calculate_metrics_noZD (c : PyVal) :
    calculate_metrics c ≠ .error .zeroDivisionError := by
  cases c with
  | vdict fs =>
    simp only [calculate_metrics, pyval_get_vdict, except_bind_ok,
      div_if_pos_int_eq, ctr_if_pos_eq, div_if_pos_self_eq]
    refine noZD_bind (extract_actions_noZD _ _) fun purchase => ?_
    refine noZD_bind (extract_actions_noZD _ _) fun lead => ?_
    refine noZD_bind (extract_actions_noZD _ _) fun add_to_cart => ?_
    refine noZD_bind (extract_actions_noZD _ _) fun link_click => ?_
    refine noZD_bind (extract_action_values_noZD _ _) fun purchase_value => ?_
    refine noZD_bind (extract_action_values_noZD _ _) fun total_conversion_value => ?_
    simp
  | none => simp [calculate_metrics, PyVal.get]
  | vbool b => simp [calculate_metrics, PyVal.get]
  | vint n => simp [calculate_metrics, PyVal.get]
  | vfloat q => simp [calculate_metrics, PyVal.get]
  | vstr s => simp [calculate_metrics, PyVal.get]
  | vlist xs => simp [calculate_metrics, PyVal.get]

/-- C1 (amended).  `calculate_metrics` never raises a division error, and for
every dict-shaped raw campaign record that it processes successfully: each of
the four derived ratios is `0` whenever its denominator is not strictly
positive, and each ratio is non-negative provided the coerced inputs feeding
its numerator are non-negative (coerced spend for `cpc`/`cpa`, coerced clicks
for `ctr`, and the extracted `omni_purchase` conversion value for `roas`).
The original claim's unconditional non-negativity fails for records carrying
negative raw values — see the counterexample. -/
theorem c1_ratio_guards :
    (∀ c, calculate_metrics c ≠ .error .zeroDivisionError) ∧
    (∀ fs m, calculate_metrics (.vdict fs) = .ok m →
      ((m.clicks ≤ 0 → m.cpc = 0) ∧
        (m.impressions ≤ 0 → m.ctr = 0) ∧
        (m.conversions.total ≤ 0 → m.cpa = 0) ∧
        (safe_float (dgetD fs ("spend") (.vint 0)) 0 ≤ 0 → m.roas = 0)) ∧
      (0 ≤ safe_float (dgetD fs ("spend") (.vint 0)) 0 → 0 ≤ m.cpc ∧ 0 ≤ m.cpa) ∧
      (0 ≤ m.clicks → 0 ≤ m.ctr) ∧
      (∀ w, extract_action_values (dgetD fs ("action_values") (.vlist [])) ("omni_purchase") = .ok w →
        0 ≤ w → 0 ≤ m.roas)) := by
  refine ⟨calculate_metrics_noZD, ?_⟩
  intro fs m hok
  simp only [calculate_metrics, pyval_get_vdict, except_bind_ok,
    div_if_pos_int_eq, ctr_if_pos_eq, div_if_pos_self_eq] at hok
  obtain ⟨purchase, hp, hok⟩ := bind_ok_inv hok
  obtain ⟨lead, hl, hok⟩ := bind_ok_inv hok
  obtain ⟨add_to_cart, hc, hok⟩ := bind_ok_inv hok
  obtain ⟨link_click, hk, hok⟩ := bind_ok_inv hok
  obtain ⟨purchase_value, hpv, hok⟩ := bind_ok_inv hok
  obtain ⟨total_conversion_value, htv, hok⟩ := bind_ok_inv hok
  simp only [except_pure_eq, Except.ok.injEq] at hok
  subst hok
  dsimp only
  refine ⟨⟨?_, ?_, ?_, ?_⟩, ?_, ?_, ?_⟩
  · intro hcl
    rw [if_neg (by omega)]
    exact round2_zero
  · intro him
    rw [if_neg (by omega)]
    exact round2_zero
  · intro hcv
    rw [if_neg (by omega)]
    exact round2_zero
  · intro hsp
    rw [if_neg (by exact not_lt.mpr hsp)]
    exact round2_zero
  · intro hsp
    constructor
    · refine round2_nonneg _ ?_
      split
      · next h => exact div_nonneg hsp (le_of_lt (by exact_mod_cast h))
      · exact le_refl 0
    · refine round2_nonneg _ ?_
      split
      · next h => exact div_nonneg hsp (le_of_lt (by exact_mod_cast h))
      · exact le_refl 0
  · intro hcl
    refine round2_nonneg _ ?_
    split
    · next h =>
      have h1 : (0 : ℚ) ≤ (safe_int (dgetD fs ("clicks") (.vint 0)) 0 : ℚ) := by
        exact_mod_cast hcl
      have h2 : (0 : ℚ) < (safe_int (dgetD fs ("impressions") (.vint 0)) 0 : ℚ) := by
        exact_mod_cast h
      positivity
    · exact le_refl 0
  · intro w hw hwnn
    rw [hw] at htv
    injection htv with htv
    subst htv
    refine round2_nonneg _ ?_
    split
    · next h => exact div_nonneg hwnn (le_of_lt h)
    · exact le_refl 0

/-- C1 counterexample.  The claim's unconditional non-negativity fails on the
code: a raw record with `spend = -1.0` and `clicks = 1` is processed without
error, but its derived `cpc` is `-1 < 0`. -/
theorem c1_negative_spend_counterexample :
    ∃ m, calculate_metrics (.vdict [("spend", .vfloat (-1)), ("clicks", .vint 1)]) = .ok m ∧
      m.cpc = -1 ∧ m.cpc < 0 := by
  have h := calculate_metrics_ok [("spend", .vfloat (-1)), ("clicks", .vint 1)]
    0 1 (-1) 0 0 0 0 0 0
    (by simp) (by simp) (by simp)
    (by simp [extract_actions_vlist]) (by simp [extract_actions_vlist])
    (by simp [extract_actions_vlist]) (by simp [extract_actions_vlist])
    (by simp [extract_action_values_vlist]) (by simp [extract_action_values_vlist])
  refine ⟨_, h, ?_, ?_⟩ <;> norm_num [round2, rhe]

/-- C1 witness.  The spec scenario `spend = 0, clicks = 0` (an empty raw
record): processing succeeds and all four ratios are `0`, obtained by
instantiating the guard theorem. -/
theorem c1_ratio_guards_witness :
    ∃ m, calculate_metrics (.vdict []) = .ok m ∧
      m.cpc = 0 ∧ m.ctr = 0 ∧ m.cpa = 0 ∧ m.roas = 0 := by
  have hok := calculate_metrics_ok [] 0 0 0 0 0 0 0 0 0
    (by simp) (by simp) (by simp)
    (by simp [extract_actions_vlist]) (by simp [extract_actions_vlist])
    (by simp [extract_actions_vlist]) (by simp [extract_actions_vlist])
    (by simp [extract_action_values_vlist]) (by simp [extract_action_values_vlist])
  have hmain := c1_ratio_guards.2 [] _ hok
  refine ⟨_, hok, ?_, ?_, ?_, ?_⟩
  · exact hmain.1.1 (by simp)
  · exact hmain.1.2.1 (by simp)
  · exact hmain.1.2.2.1 (by simp)
  · exact hmain.1.2.2.2 (by simp)

/-- Two-decimal rounding is the identity on integers. -/
theorem round2_intCast (k : ℤ) : round2 ((k : ℚ)) = (k : ℚ) := by
  have hcast : ((k : ℚ) * 100) = (((k * 100 : ℤ)) : ℚ) := by push_cast; ring
  have hfloor : ⌊((k : ℚ) * 100)⌋ = k * 100 := by
    rw [hcast, Int.floor_intCast]
  have hrhe : rhe ((k : ℚ) * 100) = k * 100 := by
    unfold rhe
    rw [hfloor, hcast]
    norm_num
  unfold round2
  rw [hrhe]
  push_cast
  ring

/-- C2 (confirmed).  The period summary's `total_conversions` is exactly the
externally supplied lead count `n` — not any function of the per-campaign
conversion totals — `total_conversion_value` is `n` times the configured
`avg_lead_value`, and `avg_cpa`/`roas` are derived from these reconciled
totals (and the spend fold).  The final conjunct makes the independence
explicit: two campaign lists with the same spend, impression and click
columns produce identical summaries regardless of their conversion data. -/
theorem c2_summary_from_lead_count (cs : List Metrics) (n : ℤ) :
    (calculate_summary cs n).total_conversions = n ∧
    (calculate_summary cs n).total_conversion_value = (n : ℚ) * (avg_lead_value : ℚ) ∧
    (calculate_summary cs n).avg_cpa =
      round2 (if 0 < n then (cs.map (fun c => c.spend)).sum / (n : ℚ) else 0) ∧
    (calculate_summary cs n).roas =
      round2 (if 0 < (cs.map (fun c => c.spend)).sum then
        (n : ℚ) * (avg_lead_value : ℚ) / (cs.map (fun c => c.spend)).sum else 0) ∧
    (∀ cs2 : List Metrics, cs.map (fun c => c.spend) = cs2.map (fun c => c.spend) →
      cs.map (fun c => c.impressions) = cs2.map (fun c => c.impressions) →
      cs.map (fun c => c.clicks) = cs2.map (fun c => c.clicks) →
      calculate_summary cs n = calculate_summary cs2 n) := by
  refine ⟨rfl, ?_, rfl, rfl, ?_⟩
  · show round2 ((n : ℚ) * (avg_lead_value : ℚ)) = (n : ℚ) * (avg_lead_value : ℚ)
    have h : ((n : ℚ) * (avg_lead_value : ℚ)) = (((n * avg_lead_value : ℤ)) : ℚ) := by
      push_cast
      ring
    rw [h, round2_intCast]
  · intro cs2 hsp him hcl
    have hlen : cs.length = cs2.length := by
      have := congrArg List.length hsp
      simpa using this
    unfold calculate_summary
    rw [hsp, him, hcl, hlen]

/-- C2 witness.  With the sample record (platform conversion total `5`) and
an external lead count of `7`, the summary reports `7` conversions and a
conversion value of `7 * 500 = 3500`; replacing the record's conversions by
zeros leaves the whole summary unchanged. -/
theorem c2_summary_from_lead_count_witness :
    (calculate_summary [mkSampleMetrics sampleConvA] 7).total_conversions = 7 ∧
    (([mkSampleMetrics sampleConvA].map (fun c => c.conversions.total)).sum = 5) ∧
    (calculate_summary [mkSampleMetrics sampleConvA] 7).total_conversion_value = 3500 ∧
    calculate_summary [mkSampleMetrics sampleConvA] 7 =
      calculate_summary [mkSampleMetrics sampleConvB] 7 := by
  have h := c2_summary_from_lead_count [mkSampleMetrics sampleConvA] 7
  refine ⟨h.1, ?_, ?_, ?_⟩
  · simp [mkSampleMetrics, sampleConvA]
  · rw [h.2.1]
    norm_num [avg_lead_value]
  · exact h.2.2.2.2 [mkSampleMetrics sampleConvB]
      (by simp [mkSampleMetrics]) (by simp [mkSampleMetrics]) (by simp [mkSampleMetrics])

/-- Membership in a descending insertion. -/
theorem mem_insertDesc (key : α → ℚ) (x z : α) (l : List α) :
    z ∈ insertDesc key x l ↔ z = x ∨ z ∈ l := by
  induction l with
  | nil => simp [insertDesc]
  | cons y ys ih =>
    rw [insertDesc]
    by_cases hc : key y ≤ key x
    · simp [if_pos hc]
    · simp only [if_neg hc, List.mem_cons, ih]
      tauto

/-- Descending insertion preserves descending pairwise order. -/
theorem insertDesc_sorted (key : α → ℚ) (x : α) (l : List α)
    (h : l.Pairwise (fun a b => key b ≤ key a)) :
    (insertDesc key x l).Pairwise (fun a b => key b ≤ key a) := by
  induction l with
  | nil => simp [insertDesc]
  | cons y ys ih =>
    rw [List.pairwise_cons] at h
    obtain ⟨hy, hys⟩ := h
    rw [insertDesc]
    by_cases hc : key y ≤ key x
    · rw [if_pos hc]
      refine List.Pairwise.cons ?_ (List.Pairwise.cons hy hys)
      intro z hz
      rcases List.mem_cons.mp hz with hz | hz
      · exact hz ▸ hc
      · exact le_trans (hy z hz) hc
    · rw [if_neg hc]
      refine List.Pairwise.cons ?_ (ih hys)
      intro z hz
      rcases (mem_insertDesc key x z ys).mp hz with hz | hz
      · exact hz ▸ le_of_lt (lt_of_not_le hc)
      · exact hy z hz

/-- The stable descending sort is descending-sorted. -/
theorem sortByDesc_sorted (key : α → ℚ) (l : List α) :
    (sortByDesc key l).Pairwise (fun a b => key b ≤ key a) := by
  induction l with
  | nil => simp [sortByDesc]
  | cons x xs ih => exact insertDesc_sorted key x _ ih

/-- Inserting an element of key class `q` puts it in front of that class:
every element it skips has a strictly larger key. -/
theorem filter_insertDesc_eq (key : α → ℚ) (q : ℚ) (x : α) (l : List α)
    (hx : key x = q) :
    (insertDesc key x l).filter (fun y => decide (key y = q)) =
      x :: l.filter (fun y => decide (key y = q)) := by
  induction l with
  | nil => simp [insertDesc, hx]
  | cons y ys ih =>
    rw [insertDesc]
    by_cases hc : key y ≤ key x
    · rw [if_pos hc]
      simp [List.filter, hx]
    · rw [if_neg hc]
      have hy : ¬ key y = q := by
        intro hcontra
        exact hc (le_of_eq (hx ▸ hcontra))
      simp [List.filter, decide_eq_false hy, ih]

/-- Inserting an element outside key class `q` leaves that class's sublist
unchanged. -/
theorem filter_insertDesc_ne (key : α → ℚ) (q : ℚ) (x : α) (l : List α)
    (hx : ¬ key x = q) :
    (insertDesc key x l).filter (fun y => decide (key y = q)) =
      l.filter (fun y => decide (key y = q)) := by
  induction l with
  | nil => simp [insertDesc, hx]
  | cons y ys ih =>
    rw [insertDesc]
    by_cases hc : key y ≤ key x
    · rw [if_pos hc]
      simp only [List.filter, decide_eq_false hx]
    · rw [if_neg hc]
      simp only [List.filter, ih]

/-- Stability of the descending sort: each key class keeps its input order
(the filtered sublists agree). -/
theorem sortByDesc_filter (key : α → ℚ) (q : ℚ) (l : List α) :
    (sortByDesc key l).filter (fun y => decide (key y = q)) =
      l.filter (fun y => decide (key y = q)) := by
  induction l with
  | nil => simp [sortByDesc]
  | cons x xs ih =>
    rw [sortByDesc]
    by_cases hx : key x = q
    · rw [filter_insertDesc_eq key q x _ hx, ih]
      simp [List.filter, hx]
    · rw [filter_insertDesc_ne key q x _ hx, ih]
      simp only [List.filter, decide_eq_false hx]

/-- C7 (confirmed).  The processed campaign list and each of the three
audience dimension lists are independently sorted in descending spend order,
and each list is the stable descending sort of the unsorted mapped list its
loop built: records of equal spend keep their input order (the spend-class
sublists coincide). -/
theorem c7_descending_stable_sort :
    (∀ cs l, process_campaigns cs = .ok l →
      l.Pairwise (fun a b => b.spend ≤ a.spend) ∧
      ∃ l0, cs.mapM calculate_metrics = .ok l0 ∧
        l = sortByDesc (fun m => m.spend) l0 ∧
        ∀ q : ℚ, l.filter (fun m => decide (m.spend = q)) =
          l0.filter (fun m => decide (m.spend = q))) ∧
    (∀ ad a, process_audience_data ad = .ok a →
      (a.age.Pairwise (fun s t => t.spend ≤ s.spend) ∧
        a.gender.Pairwise (fun s t => t.spend ≤ s.spend) ∧
        a.region.Pairwise (fun s t => t.spend ≤ s.spend)) ∧
      ∃ ra rg rr, audience_dim_raw ad ("age") = .ok ra ∧
        audience_dim_raw ad ("gender") = .ok rg ∧
        audience_dim_raw ad ("region") = .ok rr ∧
        a.age = sortByDesc (fun s => s.spend) ra ∧
        a.gender = sortByDesc (fun s => s.spend) rg ∧
        a.region = sortByDesc (fun s => s.spend) rr ∧
        ∀ q : ℚ,
          a.age.filter (fun s => decide (s.spend = q)) =
            ra.filter (fun s => decide (s.spend = q)) ∧
          a.gender.filter (fun s => decide (s.spend = q)) =
            rg.filter (fun s => decide (s.spend = q)) ∧
          a.region.filter (fun s => decide (s.spend = q)) =
            rr.filter (fun s => decide (s.spend = q))) := by
  constructor
  · intro cs l hok
    rw [process_campaigns] at hok
    obtain ⟨l0, hmap, hpure⟩ := bind_ok_inv hok
    simp only [except_pure_eq, Except.ok.injEq] at hpure
    subst hpure
    exact ⟨sortByDesc_sorted _ _, l0, hmap, rfl, fun q => sortByDesc_filter _ q l0⟩
  · intro ad a hok
    rw [process_audience_data] at hok
    obtain ⟨ra, hra, hok⟩ := bind_ok_inv hok
    obtain ⟨rg, hrg, hok⟩ := bind_ok_inv hok
    obtain ⟨rr, hrr, hok⟩ := bind_ok_inv hok
    simp only [except_pure_eq, Except.ok.injEq] at hok
    subst hok
    refine ⟨⟨sortByDesc_sorted _ _, sortByDesc_sorted _ _, sortByDesc_sorted _ _⟩,
      ra, rg, rr, hra, hrg, hrr, rfl, rfl, rfl, fun q => ?_⟩
    exact ⟨sortByDesc_filter _ q ra, sortByDesc_filter _ q rg, sortByDesc_filter _ q rr⟩

/-- The accumulator of `List.mapM.loop` factors out (specialised to the
`Except PyExc` monad). -/
theorem mapM_loop_factor (f : α → Except PyExc β) :
    ∀ (as : List α) (acc : List β),
      List.mapM.loop f as acc =
        List.mapM.loop f as [] >>= fun bs => Except.ok (acc.reverse ++ bs) := by
  intro as
  induction as with
  | nil =>
    intro acc
    simp [List.mapM.loop]
  | cons a as ih =>
    intro acc
    rw [List.mapM.loop]
    conv_rhs => rw [List.mapM.loop]
    cases hfa : f a with
    | error e => simp [hfa]
    | ok b =>
      simp only [hfa, except_bind_ok]
      rw [ih (b :: acc), ih [b]]
      cases hbs : List.mapM.loop f as [] with
      | error e => simp
      | ok bs => simp

/-- `mapM` over the empty list succeeds with the empty list. -/
theorem pyMapM_nil (f : α → Except PyExc β) : ([] : List α).mapM f = .ok [] := rfl

/-- `mapM` step: a successful head and tail give the consed result. -/
theorem pyMapM_cons_ok (f : α → Except PyExc β) (a : α) (as : List α) (b : β) (bs : List β)
    (ha : f a = .ok b) (has : as.mapM f = .ok bs) :
    (a :: as).mapM f = .ok (b :: bs) := by
  show List.mapM.loop f (a :: as) [] = _
  rw [List.mapM.loop, ha]
  simp only [except_bind_ok]
  rw [mapM_loop_factor]
  have : List.mapM.loop f as [] = .ok bs := has
  rw [this]
  simp

/-- Closed form of one segment-loop iteration on a dict segment. -/
theorem procSegment_vdict (dimKey : String) (fs : List (String × PyVal)) :
    procSegment dimKey (.vdict fs) = .ok {
      dim := dgetD fs dimKey (.vstr ("Unknown"))
      impressions := safe_int (dgetD fs ("impressions") (.vint 0)) 0
      clicks := safe_int (dgetD fs ("clicks") (.vint 0)) 0
      spend := round2 (safe_float (dgetD fs ("spend") (.vint 0)) 0) } := by
  simp [procSegment]

/-- `process_campaigns` on a successfully mapped list sorts it by spend. -/
theorem process_campaigns_eq (cs : List PyVal) (l0 : List Metrics)
    (h : cs.mapM calculate_metrics = .ok l0) :
    process_campaigns cs = .ok (sortByDesc (fun m => m.spend) l0) := by
  rw [process_campaigns, h]
  rfl

/-- `process_audience_data` on three successfully built dimension lists sorts
each one. -/
theorem process_audience_data_eq (ad : PyVal) (ra rg rr : List Segment)
    (h1 : audience_dim_raw ad ("age") = .ok ra)
    (h2 : audience_dim_raw ad ("gender") = .ok rg)
    (h3 : audience_dim_raw ad ("region") = .ok rr) :
    process_audience_data ad = .ok {
      age := sortByDesc (fun s => s.spend) ra
      gender := sortByDesc (fun s => s.spend) rg
      region := sortByDesc (fun s => s.spend) rr } := by
  rw [process_audience_data, h1]
  simp only [except_bind_ok]
  rw [h2]
  simp only [except_bind_ok]
  rw [h3]
  rfl

/-- C7 witness.  The sort theorem instantiated on two equal-spend campaigns
and a two-bucket audience payload: both processings succeed and the outputs
are descending-sorted. -/
theorem c7_descending_stable_sort_witness :
    (∃ l, process_campaigns [.vdict campFsA, .vdict campFsB] = .ok l ∧
      l.Pairwise (fun a b => b.spend ≤ a.spend)) ∧
    (∃ a, process_audience_data audSample = .ok a ∧
      a.age.Pairwise (fun s t => t.spend ≤ s.spend)) := by
  have hA := calculate_metrics_ok campFsA 0 10 50 0 0 0 0 0 0
    (by simp [campFsA]) (by simp [campFsA]) (by simp [campFsA])
    (by simp [campFsA, extract_actions_vlist]) (by simp [campFsA, extract_actions_vlist])
    (by simp [campFsA, extract_actions_vlist]) (by simp [campFsA, extract_actions_vlist])
    (by simp [campFsA, extract_action_values_vlist]) (by simp [campFsA, extract_action_values_vlist])
  have hB := calculate_metrics_ok campFsB 0 20 50 0 0 0 0 0 0
    (by simp [campFsB]) (by simp [campFsB]) (by simp [campFsB])
    (by simp [campFsB, extract_actions_vlist]) (by simp [campFsB, extract_actions_vlist])
    (by simp [campFsB, extract_actions_vlist]) (by simp [campFsB, extract_actions_vlist])
    (by simp [campFsB, extract_action_values_vlist]) (by simp [campFsB, extract_action_values_vlist])
  have hmap := pyMapM_cons_ok calculate_metrics _ _ _ _ hA
    (pyMapM_cons_ok calculate_metrics _ _ _ _ hB (pyMapM_nil calculate_metrics))
  have hproc := process_campaigns_eq _ _ hmap
  have hage : audience_dim_raw audSample ("age") = .ok
      [{ dim := .vstr ("18-24"), impressions := 0, clicks := 0, spend := round2 3 },
        { dim := .vstr ("25-34"), impressions := 0, clicks := 0, spend := round2 3 }] := by
    rw [audience_dim_raw]
    have hget : audSample.get ("age") (.vlist []) = .ok (.vlist [
        .vdict [("age", .vstr ("18-24")), ("spend", .vfloat 3)],
        .vdict [("age", .vstr ("25-34")), ("spend", .vfloat 3)]]) := by
      simp [audSample]
    rw [hget]
    simp only [except_bind_ok, PyVal.iterList]
    refine pyMapM_cons_ok _ _ _ _ _ ?_ (pyMapM_cons_ok _ _ _ _ _ ?_ (pyMapM_nil _)) <;>
      · rw [procSegment_vdict]
        simp
  have hgen : audience_dim_raw audSample ("gender") = .ok [] := by
    rw [audience_dim_raw]
    have hget : audSample.get ("gender") (.vlist []) = .ok (.vlist []) := by
      simp [audSample]
    rw [hget]
    simp only [except_bind_ok, PyVal.iterList]
    exact pyMapM_nil _
  have hreg : audience_dim_raw audSample ("region") = .ok [] := by
    rw [audience_dim_raw]
    have hget : audSample.get ("region") (.vlist []) = .ok (.vlist []) := by
      simp [audSample]
    rw [hget]
    simp only [except_bind_ok, PyVal.iterList]
    exact pyMapM_nil _
  have haud := process_audience_data_eq audSample _ _ _ hage hgen hreg
  exact ⟨⟨_, hproc, (c7_descending_stable_sort.1 _ _ hproc).1⟩,
    ⟨_, haud, (c7_descending_stable_sort.2 _ _ haud).1.1⟩⟩

/-- On all-dict entry lists the extraction loop returns the raw value of the
first entry whose `action_type` tag matches, if any. -/
theorem extract_loop_spec (ty : String) (xs : List PyVal)
    (h : ∀ a ∈ xs, ∃ fs, a = .vdict fs) :
    extract_loop ty xs = .ok
      (match xs.find? (fun a => pyEqStr (a.getD ("action_type") .none) ty) with
      | some a => some (a.getD ("value") (.vint 0))
      | Option.none => Option.none) := by
  induction xs with
  | nil => simp [extract_loop]
  | cons a rest ih =>
    obtain ⟨fs, rfl⟩ := h a (List.mem_cons_self a rest)
    rw [extract_loop]
    simp only [pyval_get_vdict, except_bind_ok]
    by_cases hEq : pyEqStr (dgetD fs ("action_type") .none) ty
    · simp [List.find?, PyVal.getD, hEq]
    · have hEq2 : pyEqStr (dgetD fs ("action_type") .none) ty = false := by
        simpa using hEq
      rw [if_neg (by simp [hEq2])]
      rw [ih (fun b hb => h b (List.mem_cons_of_mem _ hb))]
      simp [List.find?, PyVal.getD, hEq2]

/-- C6 (amended).  The extractors return the zero default on any input that
is falsy or not a list, and on an all-dict entry sequence they return exactly
the claim's first-matching-tag value (coerced with `safe_int`/`safe_float`,
whose failures yield the default) without raising.  The original claim's
"never raises; malformed entries are skipped" fails for a non-dict entry
inside the sequence, which raises `AttributeError` — see the counterexample. -/
theorem c6_extractor_contract :
    (∀ v ty, ¬ (v.truthy = true ∧ v.isList = true) →
      extract_actions v ty = .ok 0 ∧ extract_action_values v ty = .ok 0) ∧
    (∀ xs ty, (∀ a ∈ xs, ∃ fs, a = PyVal.vdict fs) →
      extract_actions (.vlist xs) ty = .ok (spec_first_match_int xs ty) ∧
      extract_action_values (.vlist xs) ty = .ok (spec_first_match_float xs ty)) := by
  constructor
  · intro v ty h
    have hb : (!v.truthy || !v.isList) = true := by
      by_cases ht : v.truthy = true
      · have hl : v.isList = false := by
          rcases Bool.eq_false_or_eq_true v.isList with hl | hl
          · exact absurd ⟨ht, hl⟩ h
          · exact hl
        simp [ht, hl]
      · have ht2 : v.truthy = false := by simpa using ht
        simp [ht2]
    exact ⟨extract_actions_not_list v ty hb, extract_action_values_not_list v ty hb⟩
  · intro xs ty h
    constructor
    · rw [extract_actions_vlist]
      by_cases hxs : xs.isEmpty
      · have : xs = [] := List.isEmpty_iff.mp hxs
        subst this
        simp [spec_first_match_int]
      · rw [if_neg hxs, extract_loop_spec ty xs h]
        rw [spec_first_match_int]
        cases xs.find? (fun a => pyEqStr (a.getD ("action_type") .none) ty) <;> simp
    · rw [extract_action_values_vlist]
      by_cases hxs : xs.isEmpty
      · have : xs = [] := List.isEmpty_iff.mp hxs
        subst this
        simp [spec_first_match_float]
      · rw [if_neg hxs, extract_loop_spec ty xs h]
        rw [spec_first_match_float]
        cases xs.find? (fun a => pyEqStr (a.getD ("action_type") .none) ty) <;> simp

/-- C6 counterexample.  A malformed (non-dict) entry inside the sequence is
not skipped: Python calls `.get` on it and an `AttributeError` propagates out
of the extractor. -/
theorem c6_non_dict_entry_counterexample :
    extract_actions (.vlist [.vint 5]) ("lead") = .error .attributeError ∧
    extract_action_values (.vlist [.vfloat 2]) ("purchase") = .error .attributeError := by
  constructor
  · rw [extract_actions_vlist]
    simp [extract_loop, PyVal.get]
  · rw [extract_action_values_vlist]
    simp [extract_loop, PyVal.get]

/-- C6 witness.  The contract instantiated at a non-sequence input (`3`) and
at a well-formed singleton sequence carrying a `lead` count of `5`. -/
theorem c6_extractor_contract_witness :
    (extract_actions (.vint 3) ("lead") = .ok 0 ∧
      extract_action_values (.vint 3) ("lead") = .ok 0) ∧
    extract_actions (.vlist [.vdict [("action_type", .vstr ("lead")), ("value", .vint 5)]]) ("lead") =
      .ok (spec_first_match_int [.vdict [("action_type", .vstr ("lead")), ("value", .vint 5)]] ("lead")) ∧
    spec_first_match_int [.vdict [("action_type", .vstr ("lead")), ("value", .vint 5)]] ("lead") = 5 := by
  refine ⟨c6_extractor_contract.1 (.vint 3) ("lead") (by simp [PyVal.isList]), ?_, ?_⟩
  · exact (c6_extractor_contract.2 [.vdict [("action_type", .vstr ("lead")), ("value", .vint 5)]]
      ("lead") (by simp)).1
  · simp [spec_first_match_int, List.find?, PyVal.getD, pyEqStr]

/-- C10 (confirmed).  In the property set handed to the document store, the
average-CTR number is the summary's `avg_ctr` divided by 100 (Notion's 0-1
percent format), while the other numeric properties — total spend,
impressions, clicks, `avg_cpc`, `total_conversions`, `avg_cpa` and
`campaign_count` — are the corresponding summary fields unchanged. -/
theorem c10_page_properties_mapping (data : ProcessedData) :
    (create_page_properties data).avg_ctr = data.summary.avg_ctr / 100 ∧
    (create_page_properties data).total_spend = data.summary.total_spend ∧
    (create_page_properties data).total_impressions = data.summary.total_impressions ∧
    (create_page_properties data).total_clicks = data.summary.total_clicks ∧
    (create_page_properties data).avg_cpc = data.summary.avg_cpc ∧
    (create_page_properties data).total_conversions = data.summary.total_conversions ∧
    (create_page_properties data).avg_cpa = data.summary.avg_cpa ∧
    (create_page_properties data).campaign_count = data.summary.campaign_count := by
  exact ⟨rfl, rfl, rfl, rfl, rfl, rfl, rfl, rfl⟩

/-- Inversion of a successful Python division. -/
theorem pydiv_ok_iff (a b c : ℚ) : pydiv a b = .ok c ↔ (b ≠ 0 ∧ c = a / b) := by
  rw [pydiv]
  by_cases h : b = 0
  · simp [h]
  · simp [h, eq_comm]

/-- The CTR rule group emits only its two insight kinds. -/
theorem mem_insights_ctr_part (s : Summary) (i : Insight) (hi : i ∈ insights_ctr_part s) :
    i = .ctrHigh ∨ i = .ctrLow := by
  rw [insights_ctr_part] at hi
  split at hi
  · simp at hi
    exact Or.inl hi
  · split at hi
    · simp at hi
      exact Or.inr hi
    · simp at hi

/-- The CPA rule group emits only its two insight kinds. -/
theorem mem_insights_cpa_part (s : Summary) (i : Insight) (hi : i ∈ insights_cpa_part s) :
    i = .cpaHigh ∨ i = .zeroConversions := by
  rw [insights_cpa_part] at hi
  split at hi
  · simp at hi
    exact Or.inl hi
  · split at hi
    · simp at hi
      exact Or.inr hi
    · simp at hi

/-- The age rule group emits only age-concentration insights. -/
theorem mem_insights_age_part (d : ProcessedData) (l : List Insight)
    (h : insights_age_part d = .ok l) (i : Insight) (hi : i ∈ l) :
    ∃ ag p, i = Insight.ageConcentration ag p := by
  rw [insights_age_part] at h
  split at h
  · simp only [Except.ok.injEq] at h
    subst h
    simp at hi
  · obtain ⟨sh, hdiv, h⟩ := bind_ok_inv h
    simp only [except_pure_eq, Except.ok.injEq] at h
    subst h
    simp at hi
    exact ⟨_, _, hi⟩

/-- The gender rule group emits only gender-skew insights. -/
theorem mem_insights_gender_part (d : ProcessedData) (l : List Insight)
    (h : insights_gender_part d = .ok l) (i : Insight) (hi : i ∈ l) :
    ∃ g p, i = Insight.genderSkew g p := by
  rw [insights_gender_part] at h
  split at h
  · split at h
    · obtain ⟨dv, hdiv, h⟩ := bind_ok_inv h
      split at h <;> dsimp only at h <;> split at h <;>
          simp only [except_pure_eq, Except.ok.injEq] at h <;> subst h <;> simp at hi <;>
        exact ⟨_, _, hi⟩
    · simp only [Except.ok.injEq] at h
      subst h
      simp at hi
  · simp only [Except.ok.injEq] at h
    subst h
    simp at hi

/-- The region rule group emits only region-concentration insights. -/
theorem mem_insights_region_part (d : ProcessedData) (l : List Insight)
    (h : insights_region_part d = .ok l) (i : Insight) (hi : i ∈ l) :
    ∃ r p, i = Insight.regionConcentration r p := by
  rw [insights_region_part] at h
  split at h
  · simp only [Except.ok.injEq] at h
    subst h
    simp at hi
  · obtain ⟨sh, hdiv, h⟩ := bind_ok_inv h
    dsimp only at h
    split at h
    · simp only [except_pure_eq, Except.ok.injEq] at h
      subst h
      simp at hi
      exact ⟨_, _, hi⟩
    · simp only [except_pure_eq, Except.ok.injEq] at h
      subst h
      simp at hi

/-- The gender rule fires exactly when at least two gender segments exist,
both a `male` and a `female` segment are found, and the spend skew exceeds
30%. -/
theorem insights_gender_part_iff (d : ProcessedData) (g : List Insight)
    (h : insights_gender_part d = .ok g) :
    ((∃ gd p, Insight.genderSkew gd p ∈ g) ↔
      (2 ≤ d.audience.gender.length ∧ ∃ m f,
        d.audience.gender.find? (fun s => pyEqStr s.dim ("male")) = some m ∧
        d.audience.gender.find? (fun s => pyEqStr s.dim ("female")) = some f ∧
        30 < |m.spend - f.spend| / max m.spend f.spend * 100)) := by
  rw [insights_gender_part] at h
  by_cases hlen : 2 ≤ d.audience.gender.length
  · rw [if_pos hlen] at h
    rcases hm : d.audience.gender.find? (fun s => pyEqStr s.dim ("male")) with _ | m <;>
      rcases hf : d.audience.gender.find? (fun s => pyEqStr s.dim ("female")) with _ | f <;>
      rw [hm, hf] at h
    · simp only [Except.ok.injEq] at h
      subst h
      simp [hm]
    · simp only [Except.ok.injEq] at h
      subst h
      simp [hm]
    · simp only [Except.ok.injEq] at h
      subst h
      simp [hf]
    · obtain ⟨dv, hdiv, h⟩ := bind_ok_inv h
      rw [pydiv_ok_iff] at hdiv
      obtain ⟨hne, rfl⟩ := hdiv
      dsimp only at h
      by_cases h30 : 30 < |m.spend - f.spend| / max m.spend f.spend * 100
      · rw [if_pos (by exact_mod_cast h30)] at h
        simp only [except_pure_eq, Except.ok.injEq] at h
        subst h
        constructor
        · intro _
          exact ⟨hlen, m, f, hm, hf, h30⟩
        · intro _
          exact ⟨_, _, List.mem_singleton.mpr rfl⟩
      · rw [if_neg (by exact_mod_cast h30)] at h
        simp only [except_pure_eq, Except.ok.injEq] at h
        subst h
        constructor
        · rintro ⟨gd, p, hmem⟩
          simp at hmem
        · rintro ⟨_, m2, f2, hm2, hf2, h30b⟩
          rw [hm] at hm2
          rw [hf] at hf2
          injection hm2 with em
          injection hf2 with ef
          subst em
          subst ef
          exact absurd h30b h30
  · rw [if_neg hlen] at h
    simp only [Except.ok.injEq] at h
    subst h
    simp [hlen]

/-- The region rule fires exactly when the region breakdown is nonempty and
its top-spend region holds more than 50% of total spend. -/
theorem insights_region_part_iff (d : ProcessedData) (r : List Insight)
    (h : insights_region_part d = .ok r) :
    ((∃ rg p, Insight.regionConcentration rg p ∈ r) ↔
      (∃ top rest, sortByDesc (fun s => s.spend) d.audience.region = top :: rest ∧
        50 < top.spend / d.summary.total_spend * 100)) := by
  rw [insights_region_part] at h
  rcases hsort : sortByDesc (fun s => s.spend) d.audience.region with _ | ⟨top, rest⟩ <;>
    rw [hsort] at h
  · simp only [Except.ok.injEq] at h
    subst h
    simp [hsort]
  · obtain ⟨sh, hdiv, h⟩ := bind_ok_inv h
    rw [pydiv_ok_iff] at hdiv
    obtain ⟨hne, rfl⟩ := hdiv
    dsimp only at h
    by_cases h50 : 50 < top.spend / d.summary.total_spend * 100
    · rw [if_pos (by exact_mod_cast h50)] at h
      simp only [except_pure_eq, Except.ok.injEq] at h
      subst h
      constructor
      · intro _
        exact ⟨top, rest, hsort, h50⟩
      · intro _
        exact ⟨_, _, List.mem_singleton.mpr rfl⟩
    · rw [if_neg (by exact_mod_cast h50)] at h
      simp only [except_pure_eq, Except.ok.injEq] at h
      subst h
      constructor
      · rintro ⟨rg, p, hmem⟩
        simp at hmem
      · rintro ⟨top2, rest2, hsort2, h50b⟩
        rw [hsort2] at hsort
        injection hsort with e1 e2
        subst e1
        exact absurd h50b h50

/-- The age rule fires exactly when the age breakdown is nonempty — there is
no threshold condition at all. -/
theorem insights_age_part_iff (d : ProcessedData) (a : List Insight)
    (h : insights_age_part d = .ok a) :
    ((∃ ag p, Insight.ageConcentration ag p ∈ a) ↔
      sortByDesc (fun s => s.spend) d.audience.age ≠ []) := by
  rw [insights_age_part] at h
  rcases hsort : sortByDesc (fun s => s.spend) d.audience.age with _ | ⟨top, rest⟩ <;>
    rw [hsort] at h
  · simp only [Except.ok.injEq] at h
    subst h
    simp [hsort]
  · dsimp only at h
    obtain ⟨sh, hdiv, h⟩ := bind_ok_inv h
    simp only [except_pure_eq, Except.ok.injEq] at h
    subst h
    simp [hsort]

/-- Evaluation of the insight rules on `insightDataEx`: the CTR, CPA, gender
and region rules are all silent, while the age rule fires with a 1% spend
share. -/
theorem create_insights_insightDataEx :
    create_insights insightDataEx = .ok [Insight.ageConcentration (.vstr ("18-24")) 1] := by
  have hctr : insights_ctr_part insightSummaryEx = [] := by
    rw [insights_ctr_part, if_neg (by norm_num [insightSummaryEx]),
      if_neg (by norm_num [insightSummaryEx])]
  have hcpa : insights_cpa_part insightSummaryEx = [] := by
    rw [insights_cpa_part, if_neg (by norm_num [insightSummaryEx]),
      if_neg (by norm_num [insightSummaryEx])]
  have hsortAge : sortByDesc (fun s => s.spend) insightDataEx.audience.age =
      [{ dim := .vstr ("18-24"), impressions := 100, clicks := 1, spend := 1 }] := by
    simp [insightDataEx, sortByDesc, insertDesc]
  have hage : insights_age_part insightDataEx = .ok [Insight.ageConcentration (.vstr ("18-24")) 1] := by
    rw [insights_age_part, hsortAge]
    have hdiv : pydiv (1 : ℚ) insightDataEx.summary.total_spend = .ok (1 / 100) := by
      rw [pydiv_ok_iff]
      norm_num [insightDataEx, insightSummaryEx]
    dsimp only
    rw [hdiv]
    simp only [except_bind_ok, except_pure_eq, Except.ok.injEq]
    norm_num
  have hgen : insights_gender_part insightDataEx = .ok [] := by
    rw [insights_gender_part, if_neg (by simp [insightDataEx])]
  have hreg : insights_region_part insightDataEx = .ok [] := by
    have hsortReg : sortByDesc (fun s => s.spend) insightDataEx.audience.region = [] := by
      simp [insightDataEx, sortByDesc]
    rw [insights_region_part, hsortReg]
  rw [create_insights, hage]
  simp only [except_bind_ok]
  rw [hgen]
  simp only [except_bind_ok]
  rw [hreg]
  simp only [except_bind_ok, except_pure_eq, Except.ok.injEq]
  have hs : insightDataEx.summary = insightSummaryEx := rfl
  rw [hs, hctr, hcpa]
  simp

/-- C9 (amended).  Whenever the insight generator completes, the gender
market-expansion insight is emitted exactly when the gender skew exceeds 30%,
and the region diversification insight exactly when the top region's spend
share exceeds 50% — but the age-concentration insight has NO threshold: it
is emitted exactly when the age breakdown is nonempty, whatever the top
bucket's share (no configurable threshold exists anywhere in the code). -/
theorem c9_insight_rule_thresholds (d : ProcessedData) (l : List Insight)
    (hok : create_insights d = .ok l) :
    ((∃ gd p, Insight.genderSkew gd p ∈ l) ↔
      (2 ≤ d.audience.gender.length ∧ ∃ m f,
        d.audience.gender.find? (fun s => pyEqStr s.dim ("male")) = some m ∧
        d.audience.gender.find? (fun s => pyEqStr s.dim ("female")) = some f ∧
        30 < |m.spend - f.spend| / max m.spend f.spend * 100)) ∧
    ((∃ rg p, Insight.regionConcentration rg p ∈ l) ↔
      (∃ top rest, sortByDesc (fun s => s.spend) d.audience.region = top :: rest ∧
        50 < top.spend / d.summary.total_spend * 100)) ∧
    ((∃ ag p, Insight.ageConcentration ag p ∈ l) ↔
      sortByDesc (fun s => s.spend) d.audience.age ≠ []) := by
  rw [create_insights] at hok
  obtain ⟨a, ha, hok⟩ := bind_ok_inv hok
  obtain ⟨g, hg, hok⟩ := bind_ok_inv hok
  obtain ⟨r, hr, hok⟩ := bind_ok_inv hok
  simp only [except_pure_eq, Except.ok.injEq] at hok
  subst hok
  have hmemg : (∃ gd p, Insight.genderSkew gd p ∈
      insights_ctr_part d.summary ++ insights_cpa_part d.summary ++ a ++ g ++ r) ↔
      (∃ gd p, Insight.genderSkew gd p ∈ g) := by
    constructor
    · rintro ⟨gd, p, hmem⟩
      refine ⟨gd, p, ?_⟩
      simp only [List.mem_append] at hmem
      rcases hmem with ((((h1 | h2) | h3) | h4) | h5)
      · rcases mem_insights_ctr_part _ _ h1 with h | h <;> exact Insight.noConfusion h
      · rcases mem_insights_cpa_part _ _ h2 with h | h <;> exact Insight.noConfusion h
      · obtain ⟨_, _, h⟩ := mem_insights_age_part d a ha _ h3
        exact Insight.noConfusion h
      · exact h4
      · obtain ⟨_, _, h⟩ := mem_insights_region_part d r hr _ h5
        exact Insight.noConfusion h
    · rintro ⟨gd, p, hmem⟩
      refine ⟨gd, p, ?_⟩
      simp only [List.mem_append]
      tauto
  have hmemr : (∃ rg p, Insight.regionConcentration rg p ∈
      insights_ctr_part d.summary ++ insights_cpa_part d.summary ++ a ++ g ++ r) ↔
      (∃ rg p, Insight.regionConcentration rg p ∈ r) := by
    constructor
    · rintro ⟨rg, p, hmem⟩
      refine ⟨rg, p, ?_⟩
      simp only [List.mem_append] at hmem
      rcases hmem with ((((h1 | h2) | h3) | h4) | h5)
      · rcases mem_insights_ctr_part _ _ h1 with h | h <;> exact Insight.noConfusion h
      · rcases mem_insights_cpa_part _ _ h2 with h | h <;> exact Insight.noConfusion h
      · obtain ⟨_, _, h⟩ := mem_insights_age_part d a ha _ h3
        exact Insight.noConfusion h
      · obtain ⟨_, _, h⟩ := mem_insights_gender_part d g hg _ h4
        exact Insight.noConfusion h
      · exact h5
    · rintro ⟨rg, p, hmem⟩
      refine ⟨rg, p, ?_⟩
      simp only [List.mem_append]
      tauto
  have hmema : (∃ ag p, Insight.ageConcentration ag p ∈
      insights_ctr_part d.summary ++ insights_cpa_part d.summary ++ a ++ g ++ r) ↔
      (∃ ag p, Insight.ageConcentration ag p ∈ a) := by
    constructor
    · rintro ⟨ag, p, hmem⟩
      refine ⟨ag, p, ?_⟩
      simp only [List.mem_append] at hmem
      rcases hmem with ((((h1 | h2) | h3) | h4) | h5)
      · rcases mem_insights_ctr_part _ _ h1 with h | h <;> exact Insight.noConfusion h
      · rcases mem_insights_cpa_part _ _ h2 with h | h <;> exact Insight.noConfusion h
      · exact h3
      · obtain ⟨_, _, h⟩ := mem_insights_gender_part d g hg _ h4
        exact Insight.noConfusion h
      · obtain ⟨_, _, h⟩ := mem_insights_region_part d r hr _ h5
        exact Insight.noConfusion h
    · rintro ⟨ag, p, hmem⟩
      refine ⟨ag, p, ?_⟩
      simp only [List.mem_append]
      tauto
  exact ⟨hmemg.trans (insights_gender_part_iff d g hg),
    hmemr.trans (insights_region_part_iff d r hr),
    hmema.trans (insights_age_part_iff d a ha)⟩

/-- C9 counterexample.  The age-concentration insight is emitted for a top
age bucket holding only 1% of spend — far below any plausible threshold (the
code's other share threshold is 50%) — so "emitted only when the share
exceeds the configurable threshold" is false: no threshold exists. -/
theorem c9_age_rule_fires_without_threshold_counterexample :
    create_insights insightDataEx = .ok [Insight.ageConcentration (.vstr ("18-24")) 1] ∧
    (1 : ℚ) ≤ 50 := by
  exact ⟨create_insights_insightDataEx, by norm_num⟩

/-- C9 witness.  The threshold theorem instantiated on `insightDataEx`: the
age breakdown is nonempty, so the age rule fires. -/
theorem c9_insight_rule_thresholds_witness :
    ∃ ag p, Insight.ageConcentration ag p ∈ [Insight.ageConcentration (.vstr ("18-24")) 1] := by
  have h := c9_insight_rule_thresholds insightDataEx _ create_insights_insightDataEx
  refine h.2.2.mpr ?_
  simp [insightDataEx, sortByDesc, insertDesc]

/-- The title property written by the formatter is exactly the lookup key
used by `check_existing_report`. -/
theorem create_page_properties_title (data : ProcessedData) :
    (create_page_properties data).title = week_title data.date_range := rfl

/-- `create_page_content` on a successfully evaluated insight list. -/
theorem create_page_content_eq (data : ProcessedData) (ins : List Insight)
    (h : create_insights data = .ok ins) :
    create_page_content data = .ok (create_summary_blocks data.summary ++
      create_campaign_table_blocks data.campaigns ++
      create_audience_blocks data.audience ++
      (Block.heading2 :: ins.map Block.toggle)) := by
  rw [create_page_content, create_insights_blocks, h]
  rfl

/-- A store none of whose documents carries the week key answers the lookup
with `none`. -/
theorem check_existing_eq_none (store : NStore) (date_range : DateRange)
    (h : ∀ p ∈ store.pages, p.props.title ≠ week_title date_range) :
    check_existing_report store date_range = Option.none := by
  rw [check_existing_report, notion_query_by_title]
  have : store.pages.filter (fun p => p.props.title == week_title date_range) = [] := by
    rw [List.filter_eq_nil_iff]
    intro p hp
    simpa using h p hp
  rw [this]
  rfl

/-- The create branch of `create_or_update_page`: no existing document, so a
fresh-id document with the full property set and content is inserted. -/
theorem create_or_update_page_create (store : NStore) (data : ProcessedData) (ch : List Block)
    (hch : create_page_content data = .ok ch)
    (hnone : check_existing_report store data.date_range = Option.none) :
    create_or_update_page store data = .ok (.created store.nextId,
      { pages := store.pages ++
          [{ pid := store.nextId, props := create_page_properties data, content := ch }]
        nextId := store.nextId + 1 }) := by
  rw [create_or_update_page, hch]
  simp only [except_bind_ok]
  rw [hnone]
  rfl

/-- The update branch of `create_or_update_page`: an existing document is
found, its properties are overwritten and the new content appended. -/
theorem create_or_update_page_update (store : NStore) (data : ProcessedData) (ch : List Block)
    (pid : ℕ)
    (hch : create_page_content data = .ok ch)
    (hsome : check_existing_report store data.date_range = some pid) :
    create_or_update_page store data = .ok (.updated pid,
      notion_blocks_append (notion_pages_update store pid (create_page_properties data)) pid ch) := by
  rw [create_or_update_page, hch]
  simp only [except_bind_ok]
  rw [hsome]
  rfl

/-- A pointwise-identity map leaves a list unchanged. -/
theorem map_id_of (l : List α) (f : α → α) (h : ∀ a ∈ l, f a = a) : l.map f = l := by
  induction l with
  | nil => rfl
  | cons a as ih =>
    rw [List.map_cons, h a (List.mem_cons_self a as), ih (fun b hb => h b (List.mem_cons_of_mem a hb))]

/-- C3 (confirmed).  Starting from a well-formed store holding no document for
the week key, publishing twice with the same data takes the create branch
first and the update branch second, and leaves exactly one document whose
title is the week key. -/
theorem c3_publish_idempotent (data : ProcessedData) (store : NStore)
    (hfresh : ∀ p ∈ store.pages, p.props.title ≠ week_title data.date_range)
    (hids : ∀ p ∈ store.pages, p.pid < store.nextId)
    (r1 : PublishResult) (s1 : NStore) (r2 : PublishResult) (s2 : NStore)
    (h1 : create_or_update_page store data = .ok (r1, s1))
    (h2 : create_or_update_page s1 data = .ok (r2, s2)) :
    (∃ i, r1 = .created i) ∧ (∃ i, r2 = .updated i) ∧
    (s2.pages.filter (fun p => p.props.title == week_title data.date_range)).length = 1 := by
  have hnone := check_existing_eq_none store data.date_range hfresh
  rcases hch : create_page_content data with e | ch
  · rw [create_or_update_page, hch] at h1
    simp at h1
  have h1' := create_or_update_page_create store data ch hch hnone
  rw [h1] at h1'
  simp only [Except.ok.injEq, Prod.mk.injEq] at h1'
  obtain ⟨hr1, hs1⟩ := h1'
  subst hr1
  subst hs1
  set newPage : NPage :=
    { pid := store.nextId, props := create_page_properties data, content := ch } with hnew
  have hq : check_existing_report
      { pages := store.pages ++ [newPage], nextId := store.nextId + 1 }
      data.date_range = some store.nextId := by
    rw [check_existing_report, notion_query_by_title]
    have hfilter : (store.pages ++ [newPage]).filter
        (fun p => p.props.title == week_title data.date_range) = [newPage] := by
      rw [List.filter_append]
      have hl : store.pages.filter
          (fun p => p.props.title == week_title data.date_range) = [] := by
        rw [List.filter_eq_nil_iff]
        intro p hp
        simpa using hfresh p hp
      rw [hl]
      simp [hnew, create_page_properties_title]
    rw [hfilter]
    rfl
  have h2' := create_or_update_page_update _ data ch store.nextId hch hq
  rw [h2] at h2'
  simp only [Except.ok.injEq, Prod.mk.injEq] at h2'
  obtain ⟨hr2, hs2⟩ := h2'
  subst hr2
  subst hs2
  refine ⟨⟨store.nextId, rfl⟩, ⟨store.nextId, rfl⟩, ?_⟩
  rw [notion_blocks_append, notion_pages_update]
  dsimp only
  rw [List.map_append, List.map_append]
  have hupd1 : store.pages.map
      (fun p => if p.pid = store.nextId then { p with props := create_page_properties data } else p) =
      store.pages := by
    refine map_id_of _ _ ?_
    intro p hp
    rw [if_neg (by exact Nat.ne_of_lt (hids p hp))]
  rw [hupd1]
  have hupd2 : store.pages.map
      (fun p => if p.pid = store.nextId then { p with content := p.content ++ ch } else p) =
      store.pages := by
    refine map_id_of _ _ ?_
    intro p hp
    rw [if_neg (by exact Nat.ne_of_lt (hids p hp))]
  rw [hupd2]
  rw [List.filter_append]
  have hl : store.pages.filter
      (fun p => p.props.title == week_title data.date_range) = [] := by
    rw [List.filter_eq_nil_iff]
    intro p hp
    simpa using hfresh p hp
  rw [hl]
  simp [hnew, create_page_properties_title]

/-- C3 witness.  Two publishes of `insightDataEx` against the empty store:
the first creates, the second updates, and exactly one document for the week
key remains. -/
theorem c3_publish_idempotent_witness :
    ∃ r1 s1 r2 s2, create_or_update_page emptyStore insightDataEx = .ok (r1, s1) ∧
      create_or_update_page s1 insightDataEx = .ok (r2, s2) ∧
      (∃ i, r1 = PublishResult.created i) ∧ (∃ i, r2 = PublishResult.updated i) ∧
      (s2.pages.filter
        (fun p => p.props.title == week_title insightDataEx.date_range)).length = 1 := by
  have hch := create_page_content_eq insightDataEx _ create_insights_insightDataEx
  have hnone := check_existing_eq_none emptyStore insightDataEx.date_range
    (by intro p hp; simp [emptyStore] at hp)
  have h1 := create_or_update_page_create emptyStore insightDataEx _ hch hnone
  have hq : check_existing_report
      ⟨emptyStore.pages ++
        [⟨emptyStore.nextId, create_page_properties insightDataEx,
          create_summary_blocks insightDataEx.summary ++
            create_campaign_table_blocks insightDataEx.campaigns ++
            create_audience_blocks insightDataEx.audience ++
            (Block.heading2 ::
              [Insight.ageConcentration (.vstr ("18-24")) 1].map Block.toggle)⟩],
        emptyStore.nextId + 1⟩ insightDataEx.date_range = some emptyStore.nextId := by
    rw [check_existing_report, notion_query_by_title]
    simp [emptyStore, create_page_properties_title]
  have h2 := create_or_update_page_update _ insightDataEx _ emptyStore.nextId hch hq
  exact ⟨_, _, _, _, h1, h2,
    c3_publish_idempotent insightDataEx emptyStore
      (by intro p hp; simp [emptyStore] at hp)
      (by intro p hp; simp [emptyStore] at hp) _ _ _ _ h1 h2⟩

/-- C4 (confirmed).  On the update branch, the found document's properties
are overwritten and exactly one block set is appended after its existing
content; every other document is untouched and none is removed. -/
theorem c4_update_branch_frame (data : ProcessedData) (store : NStore) (pid : ℕ)
    (hfind : check_existing_report store data.date_range = some pid)
    (r : PublishResult) (s2 : NStore) (ch : List Block)
    (hok : create_or_update_page store data = .ok (r, s2))
    (hch : create_page_content data = .ok ch) :
    r = .updated pid ∧
    s2.pages.length = store.pages.length ∧
    (∀ p ∈ store.pages, p.pid ≠ pid → p ∈ s2.pages) ∧
    (∀ p ∈ store.pages, p.pid = pid →
      { p with props := create_page_properties data, content := p.content ++ ch } ∈ s2.pages) := by
  have h' := create_or_update_page_update store data ch pid hch hfind
  rw [hok] at h'
  simp only [Except.ok.injEq, Prod.mk.injEq] at h'
  obtain ⟨hr, hs⟩ := h'
  subst hr
  subst hs
  refine ⟨rfl, ?_, ?_, ?_⟩
  · rw [notion_blocks_append, notion_pages_update]
    dsimp only
    rw [List.map_map, List.length_map]
  · intro p hp hne
    rw [notion_blocks_append, notion_pages_update]
    dsimp only
    rw [List.map_map]
    refine List.mem_map.mpr ⟨p, hp, ?_⟩
    simp [Function.comp, if_neg hne]
  · intro p hp he
    rw [notion_blocks_append, notion_pages_update]
    dsimp only
    rw [List.map_map]
    refine List.mem_map.mpr ⟨p, hp, ?_⟩
    simp [Function.comp, he]

/-- C4 witness.  Updating the one-document store `storeEx`: the publish takes
the update branch on id `7`, the store still holds one document, and that
document keeps its old block in front of the newly appended set. -/
theorem c4_update_branch_frame_witness :
    ∃ r s2 ch, create_or_update_page storeEx insightDataEx = .ok (r, s2) ∧
      create_page_content insightDataEx = .ok ch ∧
      r = PublishResult.updated 7 ∧
      s2.pages.length = storeEx.pages.length ∧
      { pid := 7, props := create_page_properties insightDataEx,
        content := [Block.heading2] ++ ch } ∈ s2.pages := by
  have hch := create_page_content_eq insightDataEx _ create_insights_insightDataEx
  have hfind : check_existing_report storeEx insightDataEx.date_range = some 7 := by
    rw [check_existing_report, notion_query_by_title]
    simp [storeEx, create_page_properties_title]
  have hok := create_or_update_page_update storeEx insightDataEx _ 7 hch hfind
  have hmain := c4_update_branch_frame insightDataEx storeEx 7 hfind _ _ _ hok hch
  refine ⟨_, _, _, hok, hch, hmain.1, hmain.2.1, ?_⟩
  have hmem := hmain.2.2.2
    { pid := 7, props := create_page_properties insightDataEx, content := [Block.heading2] }
    (by simp [storeEx]) rfl
  exact hmem

/-- The retry loop of `retryAux` on a function that raises an ordinary
`Exception` on every attempt: every attempt is consumed and the last
exception is re-raised. -/
theorem retryAux_all_fail (f : ℕ → Except PyExc α) (errs : ℕ → PyExc)
    (hf : ∀ k, f k = .error (errs k)) (hex : ∀ k, (errs k).isException = true) :
    ∀ rem attempt, 1 ≤ rem →
      retryAux f rem attempt = (some (.error (errs (attempt + rem - 1))), rem) := by
  intro rem
  induction rem with
  | zero => intro attempt h; omega
  | succ r ih =>
    intro attempt _
    rw [retryAux, hf attempt]
    rcases Nat.eq_zero_or_pos r with hr | hr
    · subst hr
      simp [hex attempt]
    · simp only [hex attempt, if_true, if_neg (Nat.pos_iff_ne_zero.mp hr)]
      rw [ih (attempt + 1) hr]
      dsimp only
      have harith : attempt + 1 + r - 1 = attempt + (r + 1) - 1 := by omega
      rw [harith]

/-- `retry_on_failure` in isolation does behave as specified for a step
function that raises ordinary `Exception`s on all attempts: the function is
invoked exactly `max_retries` times and the final exception is re-raised.
(The installed pipeline steps never exercise this path — see the C5 claim.) -/
theorem retry_on_failure_exhausts_attempts (f : ℕ → Except PyExc α) (errs : ℕ → PyExc)
    (hf : ∀ k, f k = .error (errs k)) (hex : ∀ k, (errs k).isException = true)
    (n : ℕ) (hn : 1 ≤ n) :
    retry_on_failure f n = (some (.error (errs n)), n) := by
  rw [retry_on_failure, retryAux_all_fail f errs hf hex n 1 hn]
  have harith : 1 + n - 1 = n := by omega
  rw [harith]

/-- C5 (code bug).  Each step module's own `main` converts any failure into
`SystemExit(1)` via `except Exception: sys.exit(1)`, and `SystemExit` is
caught neither by the retry wrapper's `except Exception` nor by the
orchestrator's.  Consequently, when the fetch-ads body fails with an
ordinary `Exception` on every attempt, the installed pipeline invokes the
step exactly once (no retries), sends NO notification at all, and aborts
with the escaping `SystemExit` — contradicting the claimed `max_retries`
attempts and single failure notification.  On overall success exactly one
success notification is sent, as claimed. -/
theorem c5_steps_never_retried_nor_notified :
    run_weekly_report_main failingFetchBehaviors =
      { outcome := .error (.systemExit 1), notifs := [],
        calls1 := 1, calls2 := 0, calls3 := 0, calls4 := 0 } ∧
    run_weekly_report_main allOkBehaviors =
      { outcome := .ok 0, notifs := [false],
        calls1 := 1, calls2 := 1, calls3 := 1, calls4 := 1 } := by
  exact ⟨rfl, rfl⟩

/-- C8 (amended).  A missing raw-ads artifact and a missing processed
artifact each raise `FileNotFoundError`, and through the step module's
`sys.exit(1)` conversion such a failure aborts the pipeline on the first
attempt, unretried (the Process step is invoked exactly once). -/
theorem c8_missing_artifact_fatal_unretried :
    get_latest_raw_data [] = .error .fileNotFoundError ∧
    get_latest_processed_data [] = .error .fileNotFoundError ∧
    run_weekly_report_main processMissingBehaviors =
      { outcome := .error (.systemExit 1), notifs := [],
        calls1 := 1, calls2 := 1, calls3 := 1, calls4 := 0 } := by
  exact ⟨rfl, rfl, rfl⟩

/-- C8 counterexample.  A missing leads artifact is NOT fatal for the Process
step: `get_latest_notion_leads` warns and substitutes a zero lead count
instead of raising. -/
theorem c8_missing_leads_not_fatal_counterexample :
    get_latest_notion_leads [] =
      .ok (.vdict [("total_leads", .vint 0), ("leads", .vlist [])]) := rfl
